import Mathlib

/-
Verification of the USML core validator (`core/src/validator.rs`) and the
reference grammar parsers (`core/src/resolver/dbml.rs`,
`core/src/resolver/openapi.rs`).

Strings are modelled as `List Char`.  Rust's Unicode-aware character classes
(`char::is_alphanumeric`, `char::is_whitespace`) are modelled by Lean's
`Char.isAlphanum` / `Char.isWhitespace`; the two agree on the ASCII inputs the
validator rules are concerned with.  File I/O performed by `resolve_imports`
is abstracted: `validate_with_resolve` takes the resolution outcome
(`ResolveContext` plus the warning list produced while resolving) as explicit
arguments; everything after that point is a direct translation of the source.
-/

namespace Usml

abbrev Str := List Char

/-- The single-quote character, used by several diagnostic format strings. -/
def SQ : Str := [Char.ofNat 39]

/-! ## String primitives (Rust `str` methods on `List Char`) -/

/-- Rust `str::split_once(sep: char)`: split at the first occurrence of `sep`. -/
def splitOnceChar (sep : Char) : Str → Option (Str × Str)
  | [] => none
  | c :: rest =>
    if c = sep then some ([], rest)
    else
      match splitOnceChar sep rest with
      | some pq => some (c :: pq.1, pq.2)
      | none => none

/-- Rust `str::strip_prefix(pat)`: remove `pre` from the front when it is a prefix. -/
def stripPrefixS (pre s : Str) : Option Str :=
  if pre.isPrefixOf s then some (s.drop pre.length) else none

/-- Rust `str::strip_suffix(pat)`: remove `suf` from the end when it is a suffix. -/
def stripSuffixS (suf s : Str) : Option Str :=
  (stripPrefixS suf.reverse s.reverse).map List.reverse

/-- Rust `str::split_once(pat: &str)`: split at the first occurrence of the
substring `pat`, removing it. -/
def splitOncePat (pat : Str) : Str → Option (Str × Str)
  | [] => if pat.isEmpty then some ([], []) else none
  | c :: rest =>
    if pat.isPrefixOf (c :: rest) then some ([], (c :: rest).drop pat.length)
    else
      match splitOncePat pat rest with
      | some pq => some (c :: pq.1, pq.2)
      | none => none

/-- Rust `s.split(pat).nth(1)`: the segment strictly between the first
occurrence of `pat` and the following occurrence (or the end of the string);
`none` when `pat` does not occur.  (Rust's `split` is lazy and `nth(1)` forces
exactly the second segment, which is delimited this way.) -/
def splitNth1 (pat s : Str) : Option Str :=
  match splitOncePat pat s with
  | none => none
  | some pq =>
    match splitOncePat pat pq.2 with
    | none => some pq.2
    | some pq2 => some pq2.1

/-- Worker for `splitWhitespace`; `acc` holds the current token reversed. -/
def splitWsAux : Str → Str → List Str
  | [], acc => if acc = [] then [] else [acc.reverse]
  | c :: rest, acc =>
    if c.isWhitespace then
      if acc = [] then splitWsAux rest [] else acc.reverse :: splitWsAux rest []
    else splitWsAux rest (c :: acc)

/-- Rust `str::split_whitespace`: maximal runs of non-whitespace characters. -/
def splitWhitespace (s : Str) : List Str := splitWsAux s []

/-- Rust `str::trim_matches(pred)`: drop leading and trailing characters
satisfying `p`. -/
def trimMatches (p : Char → Bool) (s : Str) : Str :=
  ((s.dropWhile p).reverse.dropWhile p).reverse

/-- Rust `str::trim_end_matches(pred)`: drop trailing characters satisfying `p`. -/
def trimEndMatches (p : Char → Bool) (s : Str) : Str :=
  (s.reverse.dropWhile p).reverse

/-! ## Data model (`core/src/ast.rs`, `core/src/resolver.rs`) -/

/-- `ast::Join` (`r#type` is rendered `rtype`). -/
structure Join where
  table : Str
  «on» : Str
  rtype : Option Str
  «alias» : Option Str
deriving DecidableEq

/-- `ast::JoinChainEntry`. -/
structure JoinChainEntry where
  table : Str
  «on» : Str
deriving DecidableEq

/-- `ast::Aggregate` (`r#type` is rendered `rtype`). -/
structure Aggregate where
  rtype : Str
  group_by : Option Str
deriving DecidableEq

mutual
/-- `ast::ResponseMapping`; the recursive `fields` vector forces a mutual
inductive with the bespoke list type `RMList`. -/
inductive ResponseMapping where
  | mk (field : Str) (source : Option Str) (rtype : Option Str) (source_table : Option Str)
      (join : Option Join) (join_chain : Option (List JoinChainEntry))
      (aggregate : Option Aggregate) (fields : Option RMList)

/-- `Vec<ResponseMapping>`. -/
inductive RMList where
  | nil
  | cons (hd : ResponseMapping) (tl : RMList)
end

def ResponseMapping.field : ResponseMapping → Str
  | .mk f _ _ _ _ _ _ _ => f

def ResponseMapping.source : ResponseMapping → Option Str
  | .mk _ s _ _ _ _ _ _ => s

def ResponseMapping.rtype : ResponseMapping → Option Str
  | .mk _ _ t _ _ _ _ _ => t

def ResponseMapping.source_table : ResponseMapping → Option Str
  | .mk _ _ _ st _ _ _ _ => st

def ResponseMapping.join : ResponseMapping → Option Join
  | .mk _ _ _ _ j _ _ _ => j

def ResponseMapping.join_chain : ResponseMapping → Option (List JoinChainEntry)
  | .mk _ _ _ _ _ jc _ _ => jc

def ResponseMapping.aggregate : ResponseMapping → Option Aggregate
  | .mk _ _ _ _ _ _ a _ => a

def ResponseMapping.fields : ResponseMapping → Option RMList
  | .mk _ _ _ _ _ _ _ f => f

/-- `ast::CaseWhen` (`then` is a Lean keyword, rendered `then_`). -/
structure CaseWhen where
  value : Str
  then_ : Str
deriving DecidableEq

/-- `ast::TransformCondition`. -/
structure TransformCondition where
  param : Option Str
  field : Option Str
  source : Option Str
  operator : Str
  value : Str
deriving DecidableEq

/-- `ast::Transform` (`r#type` is rendered `rtype`). -/
structure Transform where
  target : Str
  rtype : Str
  source : Option Str
  sources : Option (List Str)
  fallback : Option Str
  separator : Option Str
  when_ : Option (List CaseWhen)
  else_value : Option Str
  mask_pattern : Option Str
  condition : Option (List TransformCondition)
  then_source : Option Str
  else_source : Option Str
deriving DecidableEq

/-- `ast::Filter` (`u32` sizes are rendered `Nat`). -/
structure Filter where
  param : Str
  maps_to : Str
  condition : Option Str
  strategy : Option Str
  page_size : Option Nat
  limit_param : Option Str
  max_page_size : Option Nat
  cursor_field : Option Str
  default_column : Option Str
  default_direction : Option Str
  allowed_columns : Option (List Str)
  allowed_directions : Option (List Str)
deriving DecidableEq

/-- `ast::Import`. -/
structure Import where
  openapi : Option Str
  dbml : Option (List Str)
deriving DecidableEq

/-- `ast::Usecase`. -/
structure Usecase where
  name : Str
  summary : Option Str
  output : Option Str
  response_mapping : RMList
  filters : List Filter
  transforms : List Transform

/-- `ast::UsmlDocument`. -/
structure UsmlDocument where
  version : Str
  «import» : Import
  usecase : Usecase

/-- `resolver::DbmlTable`. -/
structure DbmlTable where
  name : Str
  columns : List Str
deriving DecidableEq

/-- `resolver::OpenapiResponse`. -/
structure OpenapiResponse where
  fields : List Str
  parameters : List Str
deriving DecidableEq

/-- `validator::ResolveContext`. -/
structure ResolveContext where
  openapi : Option OpenapiResponse
  dbml_tables : List DbmlTable

/-- `validator::ValidationError`: `Rule` is a blocking diagnostic, `Warning`
is informational; both carry the rule id and the formatted message. -/
inductive ValidationError where
  | Rule : Str → Str → ValidationError
  | Warning : Str → Str → ValidationError
deriving DecidableEq

/-- The rule id of a diagnostic. -/
def errRule : ValidationError → Str
  | .Rule r _ => r
  | .Warning r _ => r

/-! ## Rule ids and message format strings -/

def R_import_dbml : Str := ("import.dbml").data
def R_join_alias : Str := ("join.alias").data
def R_join_on : Str := ("join.on").data
def R_join_chain_on : Str := ("join_chain.on").data
def R_aggregate_group_by : Str := ("aggregate.group_by").data
def R_source_table : Str := ("source_table").data
def R_filters_condition : Str := ("filters.condition").data
def R_filters_allowed : Str := ("filters.allowed_columns").data
def R_transforms_target : Str := ("transforms.target").data
def R_transforms_condition_param : Str := ("transforms.condition.param").data
def R_response_mapping_field : Str := ("response_mapping.field").data
def R_response_mapping_source : Str := ("response_mapping.source").data

def msg_import_dbml (table : Str) : Str :=
  ("テーブル ").data ++ SQ ++ table ++ SQ ++ (" が import.dbml に含まれていません").data

def msg_join_alias (table : Str) : Str :=
  ("テーブル ").data ++ SQ ++ table ++ SQ ++
    (" が異なる結合条件で複数参照されていますが、alias が指定されていません").data

def msg_join_on (table : Str) : Str :=
  ("join.on で参照されるテーブル ").data ++ SQ ++ table ++ SQ ++
    (" が import.dbml に含まれていません").data

def msg_join_chain_on (table : Str) : Str :=
  ("join_chain.on で参照されるテーブル ").data ++ SQ ++ table ++ SQ ++
    (" が import.dbml に含まれていません").data

def msg_aggregate_group_by (field ty : Str) : Str :=
  ("フィールド ").data ++ SQ ++ field ++ SQ ++ (" に aggregate (").data ++ ty ++
    (") が使われていますが group_by が指定されていません。省略時はルートテーブルの主キーが自動適用されます").data

def msg_source_table (field st actual : Str) : Str :=
  ("配列フィールド ").data ++ SQ ++ field ++ SQ ++ (" の source_table ").data ++ SQ ++ st ++ SQ ++
    (" がjoin の実際のソーステーブル ").data ++ SQ ++ actual ++ SQ ++ (" と一致しません").data

def msg_filters_condition (param : Str) : Str :=
  ("condition で使用されるパラメータ ").data ++ SQ ++ (":").data ++ param ++ SQ ++
    (" が filters[].param で宣言されていません").data

def msg_filters_allowed (default_col : Str) : Str :=
  ("ORDER_BY の default_column ").data ++ SQ ++ default_col ++ SQ ++
    (" が allowed_columns リスト外です").data

def msg_transforms_target (target : Str) : Str :=
  ("transform の target ").data ++ SQ ++ target ++ SQ ++
    (" が response_mapping のいずれかの field に対応していません").data

def msg_transform_param_warn (target : Str) : Str :=
  ("transform ").data ++ SQ ++ target ++ SQ ++
    (" の condition に param が使われていますが、OpenAPI解析が未実装のためパラメータの存在確認はスキップされます").data

def msg_openapi_field (field : Str) : Str :=
  ("フィールド ").data ++ field ++ (" がOpenAPIレスポンスのプロパティに存在しません").data

def msg_dbml_column (col table : Str) : Str :=
  ("カラム ").data ++ col ++ (" がテーブル ").data ++ table ++ (" に存在しません").data

def msg_transform_param_rule (target param : Str) : Str :=
  ("transform ").data ++ target ++ (" の condition.param ").data ++ param ++
    (" がOpenAPIパラメータに存在しません").data

/-! ## Reference grammar parsers (`resolver/dbml.rs`, `resolver/openapi.rs`) -/

/-- The pattern `tables["` used by both the DBML reference grammar and the
lightweight import extraction. -/
def tablesPat : Str := ("tables[\"").data

/-- The closing pattern `"]`. -/
def closePat : Str := ("\"]").data

/-- `resolver::dbml::parse_dbml_ref`: split on the first `#`, then the
fragment must be `tables["<name>"]`. -/
def parse_dbml_ref (reference : Str) : Option (Str × Str) :=
  match splitOnceChar '#' reference with
  | none => none
  | some pf =>
    match stripPrefixS tablesPat pf.2 with
    | none => none
    | some t =>
      match stripSuffixS closePat t with
      | none => none
      | some table_name => some (pf.1, table_name)

def pathsPat : Str := ("paths[\"").data
def bracketDotPat : Str := ("\"].").data
def responsesPat : Str := (".responses[\"").data

/-- `resolver::openapi::parse_openapi_ref`: split on the first `#`, strip
`paths["`, split at the first `"].`, split at the first `.responses["`, and
strip the trailing `"]`. -/
def parse_openapi_ref (reference : Str) : Option (Str × Str × Str × Str) :=
  match splitOnceChar '#' reference with
  | none => none
  | some pf =>
    match stripPrefixS pathsPat pf.2 with
    | none => none
    | some without_paths =>
      match splitOncePat bracketDotPat without_paths with
      | none => none
      | some ar =>
        match splitOncePat responsesPat ar.2 with
        | none => none
        | some mr =>
          match stripSuffixS closePat mr.2 with
          | none => none
          | some status_code => some (pf.1, ar.1, mr.1, status_code)

/-! ## Validator (`core/src/validator.rs`) -/

/-- The per-reference extraction inside `parse_imported_tables`:
`r.split("tables[\"").nth(1).and_then(|s| s.strip_suffix("\"]"))`. -/
def imported_table_of_ref (r : Str) : Option Str :=
  match splitNth1 tablesPat r with
  | none => none
  | some s => stripSuffixS closePat s

/-- `validator::parse_imported_tables`. -/
def parse_imported_tables (doc : UsmlDocument) : List Str :=
  match doc.«import».dbml with
  | some refs => refs.filterMap imported_table_of_ref
  | none => []

/-- The trim predicate of `extract_table_refs`:
`|c| !c.is_alphanumeric() && c != '.' && c != '_'`. -/
def refTrimPred (c : Char) : Bool := !(c.isAlphanum || c = '.' || c = '_')

/-- Column-side character predicate of `extract_table_refs`. -/
def colCharOk (c : Char) : Bool := c.isAlphanum || c = '_'

/-- `validator::extract_table_refs`: whitespace tokens, trimmed, accepted as a
`table.column` pair when the first `.` splits non-empty sides and the column
side is alphanumeric/underscore only. -/
def extract_table_refs (on_expr : Str) : List (Str × Str) :=
  (splitWhitespace on_expr).filterMap fun token =>
    let clean := trimMatches refTrimPred token
    match splitOnceChar '.' clean with
    | some tc =>
      if tc.1 ≠ [] ∧ tc.2 ≠ [] ∧ tc.2.all colCharOk then some tc else none
    | none => none

/-- `Vec::contains`-guarded `Vec::push` used throughout `collect_used_tables`. -/
def pushNew (tables : List Str) (t : Str) : List Str :=
  if t ∈ tables then tables else tables ++ [t]

/-- The `source` step of the `collect_used_tables` loop body:
`source.split('.').next()` pushed when new. -/
def collect_source_stage (tables : List Str) : Option Str → List Str
  | some s => pushNew tables (s.takeWhile fun c => c ≠ '.')
  | none => tables

/-- The `join` step of the `collect_used_tables` loop body. -/
def collect_join_stage (tables : List Str) : Option Join → List Str
  | some j => pushNew tables j.table
  | none => tables

/-- The `join_chain` step of the `collect_used_tables` loop body. -/
def collect_chain_stage (tables : List Str) : Option (List JoinChainEntry) → List Str
  | some chain => chain.foldl (fun acc e => pushNew acc e.table) tables
  | none => tables

mutual
/-- One loop iteration of `validator::collect_used_tables` (the body for a
single mapping, threading the accumulated table list: source, join,
join_chain, then the merged recursive result). -/
def collect_used_one (tables : List Str) : ResponseMapping → List Str
  | .mk _ source _ _ join join_chain _ fields =>
    match fields with
    | some sub =>
      (collect_used_list [] sub).foldl pushNew
        (collect_chain_stage (collect_join_stage (collect_source_stage tables source) join)
          join_chain)
    | none =>
      collect_chain_stage (collect_join_stage (collect_source_stage tables source) join)
        join_chain

/-- The loop of `validator::collect_used_tables` over a mapping list. -/
def collect_used_list (tables : List Str) : RMList → List Str
  | .nil => tables
  | .cons m rest => collect_used_list (collect_used_one tables m) rest
end

/-- `validator::collect_used_tables`. -/
def collect_used_tables (mappings : RMList) : List Str := collect_used_list [] mappings

/-- `validator::validate_imports` (Rule 2). -/
def validate_imports (doc : UsmlDocument) (imported_tables : List Str) : List ValidationError :=
  (collect_used_tables doc.usecase.response_mapping).filterMap fun table =>
    if table ∈ imported_tables then none
    else some (ValidationError.Rule R_import_dbml (msg_import_dbml table))

/-- The join registry `HashMap<String, (String, Option<String>)>`, modelled as
an association list; keys are inserted at most once, so lookup of the first
matching entry coincides with the hash-map lookup. -/
abbrev JoinMap := List (Str × (Str × Option Str))

/-- `HashMap::get`. -/
def jmFind : JoinMap → Str → Option (Str × Option Str)
  | [], _ => none
  | kv :: rest, k => if kv.1 = k then some kv.2 else jmFind rest k

/-- `HashMap::insert` (only ever called on an absent key). -/
def jmInsert (jm : JoinMap) (k : Str) (v : Str × Option Str) : JoinMap := (k, v) :: jm

/-- Rule 7 of `validate_response_mapping_inner`: alias required when the same
table is joined again under a different `on` condition. -/
def rule7_join_alias (jm : JoinMap) : Option Join → JoinMap × List ValidationError
  | some j =>
    match jmFind jm j.table with
    | some ea =>
      if ea.1 ≠ j.«on» ∧ j.«alias» = none ∧ ea.2 = none then
        (jm, [ValidationError.Rule R_join_alias (msg_join_alias j.table)])
      else (jm, [])
    | none => (jmInsert jm j.table (j.«on», j.«alias»), [])
  | none => (jm, [])

/-- Rule 6 of `validate_response_mapping_inner` for `join.on`: every referenced
table must be imported, with the join's own alias exempt. -/
def rule6_join_on (imported_tables : List Str) : Option Join → List ValidationError
  | some j =>
    (extract_table_refs j.«on»).filterMap fun tc =>
      if j.«alias» = some tc.1 then none
      else if tc.1 ∈ imported_tables then none
      else some (ValidationError.Rule R_join_on (msg_join_on tc.1))
  | none => []

/-- Rule 6 of `validate_response_mapping_inner` for `join_chain[].on`: every
referenced table must be imported (no alias exemption in the source). -/
def rule6_join_chain (imported_tables : List Str) :
    Option (List JoinChainEntry) → List ValidationError
  | some chain =>
    chain.flatMap fun entry =>
      (extract_table_refs entry.«on»).filterMap fun tc =>
        if tc.1 ∈ imported_tables then none
        else some (ValidationError.Rule R_join_chain_on (msg_join_chain_on tc.1))
  | none => []

/-- Rule 8 of `validate_response_mapping_inner`: aggregate without `group_by`
warns. -/
def rule8_aggregate (field : Str) : Option Aggregate → List ValidationError
  | some agg =>
    if agg.group_by = none then
      [ValidationError.Warning R_aggregate_group_by (msg_aggregate_group_by field agg.rtype)]
    else []
  | none => []

/-- Rule 11 of `validate_response_mapping_inner`: an array field's
`source_table` must match the actual source (last chain entry, else the join
table). -/
def rule11_source_table (field : Str) (rtype : Option Str) (source_table : Option Str)
    (join : Option Join) (join_chain : Option (List JoinChainEntry)) : List ValidationError :=
  match rtype, source_table, join with
  | some ty, some st, some j =>
    if ty = ("array").data then
      let actual_source : Str := match join_chain with
        | some chain =>
          match chain.getLast? with
          | some e => e.table
          | none => j.table
        | none => j.table
      if st ≠ actual_source then
        [ValidationError.Rule R_source_table (msg_source_table field st actual_source)]
      else []
    else []
  | _, _, _ => []

mutual
/-- The loop body of `validator::validate_response_mapping_inner` for one
mapping: rules 7, 6 (join), 6 (chain), 8, 11 in source order, then the
recursive descent into `fields` sharing the join registry. -/
def validate_mapping_node (imported_tables : List Str) (m : ResponseMapping) (jm : JoinMap) :
    JoinMap × List ValidationError :=
  match m with
  | .mk field _source rtype source_table join join_chain aggregate fields =>
    let r7 := rule7_join_alias jm join
    let sub := match fields with
      | some s => validate_response_mapping_inner imported_tables s r7.1
      | none => (r7.1, [])
    (sub.1,
      r7.2 ++ rule6_join_on imported_tables join ++ rule6_join_chain imported_tables join_chain
        ++ rule8_aggregate field aggregate
        ++ rule11_source_table field rtype source_table join join_chain
        ++ sub.2)

/-- `validator::validate_response_mapping_inner`, returning the final registry
and the appended diagnostics. -/
def validate_response_mapping_inner (imported_tables : List Str) (ms : RMList) (jm : JoinMap) :
    JoinMap × List ValidationError :=
  match ms with
  | .nil => (jm, [])
  | .cons m rest =>
    let a := validate_mapping_node imported_tables m jm
    let b := validate_response_mapping_inner imported_tables rest a.1
    (b.1, a.2 ++ b.2)
end

/-- `validator::validate_response_mapping`: fresh registry. -/
def validate_response_mapping (mappings : RMList) (imported_tables : List Str) :
    List ValidationError :=
  (validate_response_mapping_inner imported_tables mappings []).2

/-- `validator::validate_filters` (Rules 9 and 12). -/
def validate_filters (doc : UsmlDocument) : List ValidationError :=
  let declared_params := doc.usecase.filters.map Filter.param
  doc.usecase.filters.flatMap fun filter =>
    (match filter.condition with
     | some condition =>
       (splitWhitespace condition).filterMap fun token =>
         match stripPrefixS ((":").data) token with
         | some param_name =>
           let clean := trimEndMatches (fun c => !(c.isAlphanum || c = '_')) param_name
           if clean ≠ [] ∧ clean ∉ declared_params then
             some (ValidationError.Rule R_filters_condition (msg_filters_condition clean))
           else none
         | none => none
     | none => [])
    ++
    (if filter.maps_to = ("ORDER_BY").data then
       match filter.allowed_columns, filter.default_column with
       | some allowed, some default_col =>
         if default_col ∈ allowed then []
         else [ValidationError.Rule R_filters_allowed (msg_filters_allowed default_col)]
       | _, _ => []
     else [])

/-- Top-level field names: `doc.usecase.response_mapping.iter().map(|m| m.field)`
(no recursion into array sub-fields in the source). -/
def rmTopFields : RMList → List Str
  | .nil => []
  | .cons m rest => m.field :: rmTopFields rest

/-- Rule 5 of `validate_transforms`: the transform target must be one of the
(top-level) response-mapping field names. -/
def transform_target_check (field_names : List Str) (transform : Transform) :
    List ValidationError :=
  if transform.target ∈ field_names then []
  else [ValidationError.Rule R_transforms_target (msg_transforms_target transform.target)]

/-- Rule 10 of `validate_transforms`: a condition carrying a `param` warns
(OpenAPI resolution not consulted here). -/
def transform_condition_warnings (transform : Transform) : List ValidationError :=
  match transform.condition with
  | some conditions =>
    conditions.filterMap fun cond =>
      match cond.param with
      | some _ =>
        some (ValidationError.Warning R_transforms_condition_param
          (msg_transform_param_warn transform.target))
      | none => none
  | none => []

/-- `validator::validate_transforms` (Rules 5 and 10). -/
def validate_transforms (doc : UsmlDocument) : List ValidationError :=
  let field_names := rmTopFields doc.usecase.response_mapping
  doc.usecase.transforms.flatMap fun transform =>
    transform_target_check field_names transform ++ transform_condition_warnings transform

/-- `validator::validate`. -/
def validate (doc : UsmlDocument) : List ValidationError :=
  let imported_tables := parse_imported_tables doc
  validate_imports doc imported_tables
    ++ validate_response_mapping doc.usecase.response_mapping imported_tables
    ++ validate_filters doc
    ++ validate_transforms doc

/-- `validator::validate_openapi_fields` (Rule 1; the source does not recurse
into sub-fields here). -/
def validate_openapi_fields : RMList → OpenapiResponse → List ValidationError
  | .nil, _ => []
  | .cons m rest, openapi =>
    (if m.field ∈ openapi.fields then []
     else [ValidationError.Rule R_response_mapping_field (msg_openapi_field m.field)])
    ++ validate_openapi_fields rest openapi

mutual
/-- Body of `validator::validate_dbml_columns` for one mapping. -/
def validate_dbml_columns_one (m : ResponseMapping) (dbml_tables : List DbmlTable) :
    List ValidationError :=
  match m with
  | .mk _ source _ _ _ _ _ fields =>
    (match source with
     | some s =>
       match splitOnceChar '.' s with
       | some tc =>
         match dbml_tables.find? (fun t => t.name == tc.1) with
         | some table =>
           if tc.2 ∈ table.columns then []
           else [ValidationError.Rule R_response_mapping_source (msg_dbml_column tc.2 tc.1)]
         | none => []
       | none => []
     | none => [])
    ++ (match fields with
        | some sub => validate_dbml_columns sub dbml_tables
        | none => [])

/-- `validator::validate_dbml_columns` (Rule 3). -/
def validate_dbml_columns (ms : RMList) (dbml_tables : List DbmlTable) : List ValidationError :=
  match ms with
  | .nil => []
  | .cons m rest =>
    validate_dbml_columns_one m dbml_tables ++ validate_dbml_columns rest dbml_tables
end

/-- `validator::validate_transform_params` (Rule 10 upgrade). -/
def validate_transform_params (transforms : List Transform) (openapi : OpenapiResponse) :
    List ValidationError :=
  transforms.flatMap fun transform =>
    match transform.condition with
    | some conditions =>
      conditions.filterMap fun cond =>
        match cond.param with
        | some param =>
          if param ∈ openapi.parameters then none
          else
            some (ValidationError.Rule R_transforms_condition_param
              (msg_transform_param_rule transform.target param))
        | none => none
    | none => []

/-- `validator::validate_with_resolve`.  `resolve_imports` performs file I/O;
its outcome is passed in explicitly: `ctx` is the `ResolveContext` it built and
`resolve_errors` the warnings it pushed.  Everything else follows the source:
the base `validate` first, then the resolve warnings, then Rules 1, 3 and
the Rule-10 upgrade guarded exactly as in the source. -/
def validate_with_resolve (doc : UsmlDocument) (ctx : ResolveContext)
    (resolve_errors : List ValidationError) : List ValidationError :=
  validate doc
    ++ resolve_errors
    ++ (match ctx.openapi with
        | some openapi => validate_openapi_fields doc.usecase.response_mapping openapi
        | none => [])
    ++ (if ctx.dbml_tables ≠ [] then
          validate_dbml_columns doc.usecase.response_mapping ctx.dbml_tables
        else [])
    ++ (match ctx.openapi with
        | some openapi => validate_transform_params doc.usecase.transforms openapi
        | none => [])

/-! ## Derived views of the mapping tree used to state the claims -/

/-- Substring search: `containsSub pat s` is true when `pat` occurs in `s`
(also at the very end; `containsSub pat [] = pat.isPrefixOf []`). -/
def containsSub (pat : Str) : Str → Bool
  | [] => pat.isPrefixOf []
  | c :: rest => pat.isPrefixOf (c :: rest) || containsSub pat rest

/-- An optional join as a (zero- or one-element) list. -/
def opt_join_list : Option Join → List Join
  | some j => [j]
  | none => []

mutual
/-- All `join` blocks of one mapping in traversal order (the node's own join,
then the joins of its `fields` subtree). -/
def joins_one : ResponseMapping → List Join
  | .mk _ _ _ _ join _ _ fields =>
    match fields with
    | some sub => opt_join_list join ++ joins_list sub
    | none => opt_join_list join

/-- All `join` blocks of a mapping list in traversal order. -/
def joins_list : RMList → List Join
  | .nil => []
  | .cons m rest => joins_one m ++ joins_list rest
end

/-- The joins of the tree whose `table` is `t`, in traversal order. -/
def joins_for (t : Str) (ms : RMList) : List Join :=
  (joins_list ms).filter fun j => j.table == t

/-- The table name an optional `source` contributes (text before the first
`.`, the whole string when it has none). -/
def source_part : Option Str → List Str
  | some s => [s.takeWhile fun c => c ≠ '.']
  | none => []

/-- The table name an optional `join` contributes. -/
def join_part : Option Join → List Str
  | some j => [j.table]
  | none => []

/-- The table names an optional `join_chain` contributes. -/
def chain_part : Option (List JoinChainEntry) → List Str
  | some chain => chain.map JoinChainEntry.table
  | none => []

mutual
/-- The table names one mapping contributes to `collect_used_tables`
(with duplicates, in contribution order). -/
def used_one : ResponseMapping → List Str
  | .mk _ source _ _ join join_chain _ fields =>
    match fields with
    | some sub => source_part source ++ join_part join ++ chain_part join_chain ++ used_list sub
    | none => source_part source ++ join_part join ++ chain_part join_chain

/-- The table names a mapping list contributes to `collect_used_tables`. -/
def used_list : RMList → List Str
  | .nil => []
  | .cons m rest => used_one m ++ used_list rest
end

/-- An optional `source` string as a list. -/
def opt_source_list : Option Str → List Str
  | some s => [s]
  | none => []

mutual
/-- All `source` strings of a mapping subtree. -/
def sources_one : ResponseMapping → List Str
  | .mk _ source _ _ _ _ _ fields =>
    match fields with
    | some sub => opt_source_list source ++ sources_list sub
    | none => opt_source_list source

/-- All `source` strings of a mapping list. -/
def sources_list : RMList → List Str
  | .nil => []
  | .cons m rest => sources_one m ++ sources_list rest
end

mutual
/-- All `field` names of a mapping subtree, flattened across every nesting
depth (the name set the spec describes for transform-target-exists). -/
def fields_one : ResponseMapping → List Str
  | .mk field _ _ _ _ _ _ fields =>
    match fields with
    | some sub => field :: fields_list sub
    | none => [field]

/-- All `field` names of a mapping list, flattened across every depth. -/
def fields_list : RMList → List Str
  | .nil => []
  | .cons m rest => fields_one m ++ fields_list rest
end

/-- Number of accepted `join.on` tokens of one optional join whose table part
is `t`, after the alias exemption: a join whose `alias` equals `t` contributes
none. -/
def join_on_tokens (t : Str) : Option Join → Nat
  | some j =>
    if j.«alias» = some t then 0
    else ((extract_table_refs j.«on»).filter fun tc => tc.1 == t).length
  | none => 0

/-- Number of accepted `join_chain[].on` tokens whose table part is `t`
(no alias exemption). -/
def chain_tokens (t : Str) : Option (List JoinChainEntry) → Nat
  | some chain =>
    ((chain.flatMap fun e => extract_table_refs e.«on»).filter fun tc => tc.1 == t).length
  | none => 0

mutual
/-- `join_on_tokens` summed over a mapping subtree. -/
def join_on_tokens_one (t : Str) : ResponseMapping → Nat
  | .mk _ _ _ _ join _ _ fields =>
    match fields with
    | some sub => join_on_tokens t join + join_on_tokens_list t sub
    | none => join_on_tokens t join

/-- `join_on_tokens` summed over a mapping list. -/
def join_on_tokens_list (t : Str) : RMList → Nat
  | .nil => 0
  | .cons m rest => join_on_tokens_one t m + join_on_tokens_list t rest
end

mutual
/-- `chain_tokens` summed over a mapping subtree. -/
def chain_tokens_one (t : Str) : ResponseMapping → Nat
  | .mk _ _ _ _ _ join_chain _ fields =>
    match fields with
    | some sub => chain_tokens t join_chain + chain_tokens_list t sub
    | none => chain_tokens t join_chain

/-- `chain_tokens` summed over a mapping list. -/
def chain_tokens_list (t : Str) : RMList → Nat
  | .nil => 0
  | .cons m rest => chain_tokens_one t m + chain_tokens_list t rest
end

/-- The `(on, alias)` pair of the first join of a list, when any. -/
def headEntry (js : List Join) : Option (Str × Option Str) :=
  match js with
  | [] => none
  | j :: _ => some (j.«on», j.«alias»)

/-- The registry value the traversal stores for table `t` after walking a
join list with no prior entry: the first join for `t` fixes `(on, alias)`. -/
def firstJoinFor (t : Str) (js : List Join) : Option (Str × Option Str) :=
  headEntry (js.filter fun j => j.table == t)

/-- The Rule-7 firing condition: the registry entry `e` and a later join `j`
disagree on `on` and neither declares an alias. -/
def aliasCond (e : Str × Option Str) (j : Join) : Prop :=
  e.1 ≠ j.«on» ∧ j.«alias» = none ∧ e.2 = none

/-- Whether walking the joins `js` (all with table `t`) starting from registry
entry `entry` emits the `join.alias` diagnostic for `t`. -/
def aliasDiagIn (entry : Option (Str × Option Str)) (js : List Join) : Prop :=
  match entry with
  | some e => ∃ j ∈ js, aliasCond e j
  | none =>
    match js with
    | [] => False
    | j1 :: rest => ∃ j ∈ rest, aliasCond (j1.«on», j1.«alias») j

/-! ## Concrete documents used as counterexamples and witnesses -/

/-- A mapping leaf with only `field` and `source`. -/
def srcField (field source : Str) : ResponseMapping :=
  .mk field (some source) none none none none none none

/-- Document with `x` existing only as a nested array sub-field while a
transform targets `x`. -/
def docNested : UsmlDocument :=
  { version := ("0.1").data
  , «import» := { openapi := none, dbml := some [("./schema.dbml#tables[\"users\"]").data] }
  , usecase :=
    { name := ("nested").data
    , summary := none
    , output := none
    , response_mapping :=
        .cons (.mk (("items").data) none (some (("array").data)) none none none none
          (some (.cons (srcField (("x").data) (("users.x").data)) .nil)))
          .nil
    , filters := []
    , transforms := [{ target := ("x").data, rtype := ("COALESCE").data, source := none
                     , sources := some [("users.x").data], fallback := none, separator := none
                     , when_ := none, else_value := none, mask_pattern := none
                     , condition := none, then_source := none, else_source := none }] } }

/-- The transform condition referencing request parameter `role`. -/
def condRole : TransformCondition :=
  { param := some ("role").data, field := none, source := none
  , operator := ("=").data, value := ("admin").data }

/-- A `CONDITIONAL_SOURCE` transform conditioned on `role`. -/
def trCondParam : Transform :=
  { target := ("id").data, rtype := ("CONDITIONAL_SOURCE").data, source := none
  , sources := none, fallback := none, separator := none
  , when_ := none, else_value := none, mask_pattern := none
  , condition := some [condRole]
  , then_source := some ("users.id").data
  , else_source := some ("users.name").data }

/-- Document with a transform condition naming the parameter `role`. -/
def docCondParam : UsmlDocument :=
  { version := ("0.1").data
  , «import» := { openapi := some ("./api.yaml#paths[\"/users\"].get.responses[\"200\"]").data
                , dbml := some [("./schema.dbml#tables[\"users\"]").data] }
  , usecase :=
    { name := ("cond").data
    , summary := none
    , output := none
    , response_mapping := .cons (srcField (("id").data) (("users.id").data)) .nil
    , filters := []
    , transforms := [trCondParam] } }

/-- Document importing the hashless ref `tables["users"]`. -/
def docHashless : UsmlDocument :=
  { version := ("0.1").data
  , «import» := { openapi := none, dbml := some [("tables[\"users\"]").data] }
  , usecase :=
    { name := ("hashless").data
    , summary := none
    , output := none
    , response_mapping := .nil
    , filters := []
    , transforms := [] } }

/-- Resolved OpenAPI facts with parameter set `[status]`. -/
def oaStatus : OpenapiResponse :=
  { fields := [("id").data], parameters := [("status").data] }

/-- A resolved context carrying `oaStatus` and no DBML tables. -/
def ctxStatus : ResolveContext :=
  { openapi := some oaStatus, dbml_tables := [] }

/-- Document whose join declares alias `u` which the `join_chain` condition
then references. -/
def docChainAlias : UsmlDocument :=
  { version := ("0.1").data
  , «import» := { openapi := none
                , dbml := some [("./schema.dbml#tables[\"users\"]").data
                               , ("./schema.dbml#tables[\"posts\"]").data] }
  , usecase :=
    { name := ("chain").data
    , summary := none
    , output := none
    , response_mapping :=
        .cons (.mk (("author").data) (some (("users.name").data)) none none
          (some { table := ("users").data, «on» := ("posts.user_id = users.id").data
                , rtype := none, «alias» := some ("u").data })
          (some [{ table := ("posts").data, «on» := ("u.id = posts.author_id").data }])
          none none)
          .nil
    , filters := []
    , transforms := [] } }

/-- Document joining `users` twice with different `on` strings and no alias. -/
def docTwoJoins : UsmlDocument :=
  { version := ("0.1").data
  , «import» := { openapi := none
                , dbml := some [("./schema.dbml#tables[\"posts\"]").data
                               , ("./schema.dbml#tables[\"users\"]").data] }
  , usecase :=
    { name := ("dup").data
    , summary := none
    , output := none
    , response_mapping :=
        .cons (.mk (("author_name").data) (some (("users.name").data)) none none
          (some { table := ("users").data, «on» := ("posts.user_id = users.id").data
                , rtype := none, «alias» := none }) none none none)
          (.cons (.mk (("editor_name").data) (some (("users.name").data)) none none
            (some { table := ("users").data, «on» := ("posts.editor_id = users.id").data
                  , rtype := none, «alias» := none }) none none none) .nil)
    , filters := []
    , transforms := [] } }

/-- Document whose only `source` is the dot-free string `id`. -/
def docBareSource : UsmlDocument :=
  { version := ("0.1").data
  , «import» := { openapi := none, dbml := some [("./schema.dbml#tables[\"users\"]").data] }
  , usecase :=
    { name := ("bare").data
    , summary := none
    , output := none
    , response_mapping := .cons (srcField (("id").data) (("id").data)) .nil
    , filters := []
    , transforms := [] } }

/-! ## Lemmas about the string primitives -/

theorem isPrefixOf_iff (p s : Str) : p.isPrefixOf s = true ↔ ∃ t, s = p ++ t := by
  induction p generalizing s with
  | nil => simp [List.isPrefixOf]
  | cons a p' ih =>
    cases s with
    | nil => simp [List.isPrefixOf]
    | cons b s' =>
      simp only [List.isPrefixOf, Bool.and_eq_true, beq_iff_eq, ih, List.cons_append,
        List.cons.injEq]
      constructor
      · rintro ⟨rfl, t, rfl⟩
        exact ⟨t, rfl, rfl⟩
      · rintro ⟨t, rfl, rfl⟩
        exact ⟨rfl, t, rfl⟩

theorem stripPrefixS_eq_some_iff (pre s t : Str) :
    stripPrefixS pre s = some t ↔ s = pre ++ t := by
  constructor
  · intro h
    unfold stripPrefixS at h
    by_cases hp : pre.isPrefixOf s = true
    · rw [if_pos hp] at h
      obtain ⟨u, rfl⟩ := (isPrefixOf_iff pre s).mp hp
      have hu : u = t := by simpa [List.drop_left] using h
      rw [hu]
    · rw [if_neg hp] at h
      cases h
  · rintro rfl
    unfold stripPrefixS
    rw [if_pos ((isPrefixOf_iff pre _).mpr ⟨t, rfl⟩), List.drop_left]

theorem stripSuffixS_eq_some_iff (suf s t : Str) :
    stripSuffixS suf s = some t ↔ s = t ++ suf := by
  constructor
  · intro h
    unfold stripSuffixS at h
    cases hsp : stripPrefixS suf.reverse s.reverse with
    | none => rw [hsp] at h; cases h
    | some u =>
      rw [hsp] at h
      have hu : u.reverse = t := by simpa using h
      subst hu
      have h2 := (stripPrefixS_eq_some_iff _ _ _).mp hsp
      have h3 := congrArg List.reverse h2
      simpa using h3
  · rintro rfl
    unfold stripSuffixS
    have h2 : stripPrefixS suf.reverse (t ++ suf).reverse = some t.reverse :=
      (stripPrefixS_eq_some_iff _ _ _).mpr (by simp)
    rw [h2]
    simp

theorem splitOnceChar_eq_some (c : Char) (s a b : Str)
    (h : splitOnceChar c s = some (a, b)) : c ∉ a ∧ s = a ++ c :: b := by
  induction s generalizing a b with
  | nil => simp [splitOnceChar] at h
  | cons d s' ih =>
    by_cases hd : d = c
    · rw [splitOnceChar, if_pos hd] at h
      obtain ⟨rfl, rfl⟩ : a = [] ∧ b = s' := by
        simpa [eq_comm] using h
      simp [hd]
    · rw [splitOnceChar, if_neg hd] at h
      cases hsp : splitOnceChar c s' with
      | none => rw [hsp] at h; simp at h
      | some pq =>
        rw [hsp] at h
        obtain ⟨rfl, rfl⟩ : a = d :: pq.1 ∧ b = pq.2 := by
          simpa [eq_comm] using h
        obtain ⟨h1, h2⟩ := ih pq.1 pq.2 hsp
        refine ⟨?_, by simp [h2]⟩
        simp only [List.mem_cons, not_or]
        exact ⟨fun hc => hd hc.symm, h1⟩

theorem splitOnceChar_append (c : Char) (a b : Str) (h : c ∉ a) :
    splitOnceChar c (a ++ c :: b) = some (a, b) := by
  induction a with
  | nil => simp [splitOnceChar]
  | cons d a' ih =>
    have hd : ¬ d = c := by
      intro hdc
      exact h (by simp [hdc])
    have h' : c ∉ a' := fun hm => h (List.mem_cons_of_mem _ hm)
    rw [List.cons_append, splitOnceChar, if_neg hd]
    simp [List.append_eq, ih h']

theorem splitOncePat_self_append (pat y : Str) (hp : pat ≠ []) :
    splitOncePat pat (pat ++ y) = some ([], y) := by
  cases pat with
  | nil => exact absurd rfl hp
  | cons c p' =>
    have hpre : (c :: p').isPrefixOf (c :: (p' ++ y)) = true :=
      (isPrefixOf_iff _ _).mpr ⟨y, by simp⟩
    simp only [List.cons_append, splitOncePat, hpre, if_pos]
    simp [List.drop_left]

theorem isPrefixOf_append_left (pat u v : Str) (h : pat.isPrefixOf (u ++ v) = true)
    (hlen : pat.length ≤ u.length) : pat.isPrefixOf u = true := by
  obtain ⟨t, ht⟩ := (isPrefixOf_iff _ _).mp h
  refine (isPrefixOf_iff _ _).mpr ⟨u.drop pat.length, ?_⟩
  have htake : u.take pat.length = pat := by
    have h1 : (u ++ v).take pat.length = u.take pat.length :=
      List.take_append_of_le_length hlen
    rw [ht] at h1
    simpa [List.take_left] using h1.symm
  conv_lhs => rw [← List.take_append_drop pat.length u]
  rw [htake]

theorem splitOncePat_append_head (c0 : Char) (p' x y : Str) (h : c0 ∉ x) :
    splitOncePat (c0 :: p') (x ++ ((c0 :: p') ++ y)) = some (x, y) := by
  induction x with
  | nil => simpa using splitOncePat_self_append (c0 :: p') y (by simp)
  | cons d x' ih =>
    have hne : ¬ (c0 = d) := by
      intro hc
      exact h (by simp [hc])
    have h' : c0 ∉ x' := fun hm => h (List.mem_cons_of_mem _ hm)
    have ih' := ih h'
    rw [List.cons_append] at ih'
    have hpre2 : (c0 :: p').isPrefixOf (d :: (x' ++ (c0 :: (p' ++ y)))) = false := by
      apply Bool.eq_false_iff.mpr
      intro hb
      obtain ⟨t, ht⟩ := (isPrefixOf_iff _ _).mp hb
      rw [List.cons_append] at ht
      simp only [List.cons.injEq] at ht
      exact hne ht.1.symm
    rw [List.cons_append, List.cons_append, splitOncePat, if_neg (by rw [hpre2]; simp), ih']

theorem containsSub_false_cons (pat : Str) (c : Char) (rest : Str)
    (h : containsSub pat (c :: rest) = false) :
    pat.isPrefixOf (c :: rest) = false ∧ containsSub pat rest = false := by
  rw [containsSub] at h
  exact Bool.or_eq_false_iff.mp h

theorem splitOncePat_eq_none_of_not_contains (pat s : Str)
    (h : containsSub pat s = false) : splitOncePat pat s = none := by
  induction s with
  | nil =>
    rw [containsSub] at h
    have hp : pat ≠ [] := by
      intro hpe
      rw [hpe] at h
      simp [List.isPrefixOf] at h
    rw [splitOncePat, if_neg (by simpa [List.isEmpty_iff] using hp)]
  | cons c rest ih =>
    obtain ⟨h1, h2⟩ := containsSub_false_cons pat c rest h
    rw [splitOncePat, if_neg (by simp [h1]), ih h2]

theorem splitOncePat_append_of_not_contains (pat x y : Str) (hp : pat ≠ [])
    (h : containsSub pat (x ++ pat.dropLast) = false) :
    splitOncePat pat (x ++ (pat ++ y)) = some (x, y) := by
  induction x with
  | nil => simpa using splitOncePat_self_append pat y hp
  | cons d x' ih =>
    have h' : containsSub pat (d :: (x' ++ pat.dropLast)) = false := by
      simpa using h
    obtain ⟨h0, hrest⟩ := containsSub_false_cons pat d (x' ++ pat.dropLast) h'
    have hnp : pat.isPrefixOf (d :: (x' ++ (pat ++ y))) = false := by
      cases hb : pat.isPrefixOf (d :: (x' ++ (pat ++ y))) with
      | false => rfl
      | true =>
        exfalso
        have hlc : pat.dropLast ++ [pat.getLast hp] = pat := List.dropLast_append_getLast hp
        have hdecomp : d :: (x' ++ (pat ++ y))
            = (d :: (x' ++ pat.dropLast)) ++ (pat.getLast hp :: y) := by
          conv_lhs => rw [← hlc]
          simp
        rw [hdecomp] at hb
        have hlen : pat.length ≤ (d :: (x' ++ pat.dropLast)).length := by
          have h1 : 1 ≤ pat.length := List.length_pos.mpr hp
          simp [List.length_dropLast]
          omega
        have h2 := isPrefixOf_append_left pat _ _ hb hlen
        rw [h2] at h0
        cases h0
    simp only [List.cons_append]
    rw [splitOncePat, if_neg (by simp [hnp]), ih hrest]

theorem takeWhile_ne_of_notMem (c : Char) (s : Str) (h : c ∉ s) :
    (s.takeWhile fun d => d ≠ c) = s := by
  rw [List.takeWhile_eq_self_iff]
  intro a ha
  simp only [ne_eq, decide_eq_true_eq]
  intro rfl_eq
  exact h (rfl_eq ▸ ha)

/-! ## Message injectivity -/

theorem sq_mid_inj {pre suf x y : Str}
    (h : (((pre ++ SQ) ++ x) ++ SQ) ++ suf = (((pre ++ SQ) ++ y) ++ SQ) ++ suf) : x = y :=
  List.append_cancel_left (List.append_cancel_right (List.append_cancel_right h))

theorem msg_import_dbml_inj {a b : Str} (h : msg_import_dbml a = msg_import_dbml b) : a = b := by
  unfold msg_import_dbml at h
  exact sq_mid_inj h

theorem msg_join_alias_inj {a b : Str} (h : msg_join_alias a = msg_join_alias b) : a = b := by
  unfold msg_join_alias at h
  exact sq_mid_inj h

theorem msg_join_on_inj {a b : Str} (h : msg_join_on a = msg_join_on b) : a = b := by
  unfold msg_join_on at h
  exact sq_mid_inj h

theorem msg_join_chain_on_inj {a b : Str} (h : msg_join_chain_on a = msg_join_chain_on b) :
    a = b := by
  unfold msg_join_chain_on at h
  exact sq_mid_inj h

theorem msg_transforms_target_inj {a b : Str}
    (h : msg_transforms_target a = msg_transforms_target b) : a = b := by
  unfold msg_transforms_target at h
  exact sq_mid_inj h

/-! ## Generic counting lemmas -/

theorem count_filterMap {α β : Type} [DecidableEq β] (l : List α) (g : α → Option β) (d : β) :
    (l.filterMap g).count d = (l.filter fun a => g a == some d).length := by
  induction l with
  | nil => simp
  | cons a l ih =>
    cases hga : g a with
    | none => simp [List.filterMap_cons, hga, ih]
    | some e =>
      by_cases he : e = d
      · subst he
        simp [List.filterMap_cons, hga, List.count_cons, ih]
      · simp [List.filterMap_cons, hga, List.count_cons, he, ih]

theorem ite_some_none_eq_some {α : Type} {c : Prop} [Decidable c] {x e : α}
    (h : (if c then some x else none) = some e) : e = x := by
  by_cases hc : c
  · rw [if_pos hc] at h
    cases h
    rfl
  · rw [if_neg hc] at h
    cases h

theorem ite_none_skip {α : Type} {c : Prop} [Decidable c] {rest : Option α} {e : α}
    (h : (if c then none else rest) = some e) : rest = some e := by
  by_cases hc : c
  · rw [if_pos hc] at h
    cases h
  · rwa [if_neg hc] at h

/-! ## Rule ids carried by each validator component -/

theorem errRule_validate_imports {doc : UsmlDocument} {imp : List Str} {e : ValidationError}
    (h : e ∈ validate_imports doc imp) : errRule e = R_import_dbml := by
  unfold validate_imports at h
  obtain ⟨a, _, hg⟩ := List.mem_filterMap.mp h
  by_cases ha : a ∈ imp
  · rw [if_pos ha] at hg; cases hg
  · rw [if_neg ha] at hg
    cases hg
    rfl

theorem errRule_rule7 {jm : JoinMap} {join : Option Join} {e : ValidationError}
    (h : e ∈ (rule7_join_alias jm join).2) : errRule e = R_join_alias := by
  cases join with
  | none => simp [rule7_join_alias] at h
  | some j =>
    rw [rule7_join_alias] at h
    cases hf : jmFind jm j.table with
    | some ea =>
      rw [hf] at h
      simp only [] at h
      split at h
      · simp only [List.mem_singleton] at h
        subst h
        rfl
      · simp at h
    | none =>
      rw [hf] at h
      simp at h

theorem errRule_rule6_join_on {imp : List Str} {join : Option Join} {e : ValidationError}
    (h : e ∈ rule6_join_on imp join) :
    errRule e = R_join_on ∧ ∃ t, e = .Rule R_join_on (msg_join_on t) := by
  cases join with
  | none => simp [rule6_join_on] at h
  | some j =>
    rw [rule6_join_on] at h
    obtain ⟨tc, _, hg⟩ := List.mem_filterMap.mp h
    by_cases h1 : j.«alias» = some tc.1
    · rw [if_pos h1] at hg; cases hg
    · rw [if_neg h1] at hg
      by_cases h2 : tc.1 ∈ imp
      · rw [if_pos h2] at hg; cases hg
      · rw [if_neg h2] at hg
        cases hg
        exact ⟨rfl, tc.1, rfl⟩

theorem errRule_rule6_join_chain {imp : List Str} {jc : Option (List JoinChainEntry)}
    {e : ValidationError} (h : e ∈ rule6_join_chain imp jc) :
    errRule e = R_join_chain_on ∧ ∃ t, e = .Rule R_join_chain_on (msg_join_chain_on t) := by
  cases jc with
  | none => simp [rule6_join_chain] at h
  | some chain =>
    rw [rule6_join_chain] at h
    obtain ⟨entry, _, hmem⟩ := List.mem_flatMap.mp h
    obtain ⟨tc, _, hg⟩ := List.mem_filterMap.mp hmem
    by_cases h2 : tc.1 ∈ imp
    · rw [if_pos h2] at hg; cases hg
    · rw [if_neg h2] at hg
      cases hg
      exact ⟨rfl, tc.1, rfl⟩

theorem errRule_rule8 {field : Str} {agg : Option Aggregate} {e : ValidationError}
    (h : e ∈ rule8_aggregate field agg) :
    errRule e = R_aggregate_group_by ∧ ∃ m, e = .Warning R_aggregate_group_by m := by
  cases agg with
  | none => simp [rule8_aggregate] at h
  | some a =>
    rw [rule8_aggregate] at h
    by_cases hg : a.group_by = none
    · rw [if_pos hg] at h
      simp only [List.mem_singleton] at h
      subst h
      exact ⟨rfl, _, rfl⟩
    · rw [if_neg hg] at h
      simp at h

theorem errRule_rule11 {field : Str} {rtype source_table : Option Str} {join : Option Join}
    {jc : Option (List JoinChainEntry)} {e : ValidationError}
    (h : e ∈ rule11_source_table field rtype source_table join jc) :
    errRule e = R_source_table := by
  unfold rule11_source_table at h
  rcases rtype with _ | ty <;> rcases source_table with _ | st <;> rcases join with _ | j <;>
    simp at h
  obtain ⟨-, -, rfl⟩ := h
  rfl

mutual
theorem errRule_vrm_one (imp : List Str) (m : ResponseMapping) (jm : JoinMap)
    (e : ValidationError) (h : e ∈ (validate_mapping_node imp m jm).2) :
    errRule e = R_join_alias ∨ errRule e = R_join_on ∨ errRule e = R_join_chain_on ∨
      errRule e = R_aggregate_group_by ∨ errRule e = R_source_table := by
  match m with
  | .mk field src rtype st join jc agg fields =>
    cases fields with
    | none =>
      simp only [validate_mapping_node, List.mem_append, List.not_mem_nil, or_false] at h
      rcases h with (((h | h) | h) | h) | h
      · exact Or.inl (errRule_rule7 h)
      · exact Or.inr (Or.inl (errRule_rule6_join_on h).1)
      · exact Or.inr (Or.inr (Or.inl (errRule_rule6_join_chain h).1))
      · exact Or.inr (Or.inr (Or.inr (Or.inl (errRule_rule8 h).1)))
      · exact Or.inr (Or.inr (Or.inr (Or.inr (errRule_rule11 h))))
    | some s =>
      simp only [validate_mapping_node, List.mem_append] at h
      rcases h with ((((h | h) | h) | h) | h) | h
      · exact Or.inl (errRule_rule7 h)
      · exact Or.inr (Or.inl (errRule_rule6_join_on h).1)
      · exact Or.inr (Or.inr (Or.inl (errRule_rule6_join_chain h).1))
      · exact Or.inr (Or.inr (Or.inr (Or.inl (errRule_rule8 h).1)))
      · exact Or.inr (Or.inr (Or.inr (Or.inr (errRule_rule11 h))))
      · exact errRule_vrm_list imp s _ e h

theorem errRule_vrm_list (imp : List Str) (ms : RMList) (jm : JoinMap)
    (e : ValidationError) (h : e ∈ (validate_response_mapping_inner imp ms jm).2) :
    errRule e = R_join_alias ∨ errRule e = R_join_on ∨ errRule e = R_join_chain_on ∨
      errRule e = R_aggregate_group_by ∨ errRule e = R_source_table := by
  match ms with
  | .nil => simp [validate_response_mapping_inner] at h
  | .cons m rest =>
    simp only [validate_response_mapping_inner, List.mem_append] at h
    rcases h with h | h
    · exact errRule_vrm_one imp m jm e h
    · exact errRule_vrm_list imp rest _ e h
end

theorem errRule_validate_filters {doc : UsmlDocument} {e : ValidationError}
    (h : e ∈ validate_filters doc) :
    errRule e = R_filters_condition ∨ errRule e = R_filters_allowed := by
  unfold validate_filters at h
  obtain ⟨f, _, hmem⟩ := List.mem_flatMap.mp h
  rw [List.mem_append] at hmem
  rcases hmem with hmem | hmem
  · cases hcond : f.condition with
    | none => rw [hcond] at hmem; simp at hmem
    | some condition =>
      rw [hcond] at hmem
      obtain ⟨tok, _, hg⟩ := List.mem_filterMap.mp hmem
      cases hsp : stripPrefixS ((":").data) tok with
      | none => rw [hsp] at hg; cases hg
      | some pn =>
        rw [hsp] at hg
        have he := ite_some_none_eq_some hg
        subst he
        exact Or.inl rfl
  · by_cases hmt : f.maps_to = ("ORDER_BY").data
    · rw [if_pos hmt] at hmem
      rcases hac : f.allowed_columns with _ | allowed <;> rcases hdc : f.default_column with _ | dc <;>
        rw [hac, hdc] at hmem <;> simp at hmem
      rw [hmem.2]
      exact Or.inr rfl
    · rw [if_neg hmt] at hmem
      simp at hmem

theorem mem_transform_target_check {F : List Str} {tr : Transform} {e : ValidationError}
    (h : e ∈ transform_target_check F tr) :
    e = .Rule R_transforms_target (msg_transforms_target tr.target) ∧ tr.target ∉ F := by
  unfold transform_target_check at h
  split at h
  · simp at h
  · simp only [List.mem_singleton] at h
    subst h
    constructor
    · rfl
    · assumption

theorem mem_transform_condition_warnings {tr : Transform} {e : ValidationError}
    (h : e ∈ transform_condition_warnings tr) :
    e = .Warning R_transforms_condition_param (msg_transform_param_warn tr.target) := by
  unfold transform_condition_warnings at h
  cases hcond : tr.condition with
  | none => rw [hcond] at h; simp at h
  | some conds =>
    rw [hcond] at h
    obtain ⟨c, _, hg⟩ := List.mem_filterMap.mp h
    cases hp : c.param with
    | none => rw [hp] at hg; cases hg
    | some p =>
      rw [hp] at hg
      cases hg
      rfl

theorem errRule_validate_transforms {doc : UsmlDocument} {e : ValidationError}
    (h : e ∈ validate_transforms doc) :
    (∃ t, e = .Rule R_transforms_target (msg_transforms_target t)) ∨
      (∃ t, e = .Warning R_transforms_condition_param (msg_transform_param_warn t)) := by
  unfold validate_transforms at h
  obtain ⟨tr, _, hmem⟩ := List.mem_flatMap.mp h
  rw [List.mem_append] at hmem
  rcases hmem with hmem | hmem
  · exact Or.inl ⟨tr.target, (mem_transform_target_check hmem).1⟩
  · exact Or.inr ⟨tr.target, mem_transform_condition_warnings hmem⟩

/-! ## Membership and uniqueness of `collect_used_tables` -/

theorem mem_pushNew {x t : Str} {acc : List Str} : x ∈ pushNew acc t ↔ x ∈ acc ∨ x = t := by
  unfold pushNew
  by_cases h : t ∈ acc
  · rw [if_pos h]
    constructor
    · exact Or.inl
    · rintro (hx | rfl)
      · exact hx
      · exact h
  · rw [if_neg h]
    simp

theorem nodup_pushNew {acc : List Str} (t : Str) (h : acc.Nodup) : (pushNew acc t).Nodup := by
  unfold pushNew
  by_cases ht : t ∈ acc
  · rwa [if_pos ht]
  · rw [if_neg ht, List.nodup_append]
    refine ⟨h, List.nodup_singleton t, ?_⟩
    intro a ha hb
    rw [List.mem_singleton] at hb
    subst hb
    exact ht ha

theorem mem_foldl_pushNew (l : List Str) : ∀ (acc : List Str) (x : Str),
    x ∈ l.foldl pushNew acc ↔ x ∈ acc ∨ x ∈ l := by
  induction l with
  | nil => simp
  | cons a l ih =>
    intro acc x
    rw [List.foldl_cons, ih, mem_pushNew, List.mem_cons]
    tauto

theorem nodup_foldl_pushNew (l : List Str) : ∀ acc : List Str, acc.Nodup →
    (l.foldl pushNew acc).Nodup := by
  induction l with
  | nil => intro acc h; simpa
  | cons a l ih =>
    intro acc h
    rw [List.foldl_cons]
    exact ih _ (nodup_pushNew a h)

theorem foldl_pushNew_table (chain : List JoinChainEntry) : ∀ acc : List Str,
    chain.foldl (fun a e => pushNew a e.table) acc
      = (chain.map JoinChainEntry.table).foldl pushNew acc := by
  induction chain with
  | nil => intro acc; rfl
  | cons e chain ih => intro acc; rw [List.map_cons, List.foldl_cons, List.foldl_cons, ih]

theorem mem_collect_source_stage (src : Option Str) (acc : List Str) (x : Str) :
    x ∈ collect_source_stage acc src ↔ x ∈ acc ∨ x ∈ source_part src := by
  cases src <;> simp [collect_source_stage, source_part, mem_pushNew]

theorem mem_collect_join_stage (join : Option Join) (acc : List Str) (x : Str) :
    x ∈ collect_join_stage acc join ↔ x ∈ acc ∨ x ∈ join_part join := by
  cases join <;> simp [collect_join_stage, join_part, mem_pushNew]

theorem mem_collect_chain_stage (jc : Option (List JoinChainEntry)) (acc : List Str) (x : Str) :
    x ∈ collect_chain_stage acc jc ↔ x ∈ acc ∨ x ∈ chain_part jc := by
  cases jc with
  | none => simp [collect_chain_stage, chain_part]
  | some chain =>
    rw [collect_chain_stage, chain_part, foldl_pushNew_table, mem_foldl_pushNew]

theorem nodup_collect_source_stage (src : Option Str) {acc : List Str} (h : acc.Nodup) :
    (collect_source_stage acc src).Nodup := by
  cases src
  · exact h
  · exact nodup_pushNew _ h

theorem nodup_collect_join_stage (join : Option Join) {acc : List Str} (h : acc.Nodup) :
    (collect_join_stage acc join).Nodup := by
  cases join
  · exact h
  · exact nodup_pushNew _ h

theorem nodup_collect_chain_stage (jc : Option (List JoinChainEntry)) {acc : List Str}
    (h : acc.Nodup) : (collect_chain_stage acc jc).Nodup := by
  cases jc with
  | none => exact h
  | some chain =>
    rw [collect_chain_stage, foldl_pushNew_table]
    exact nodup_foldl_pushNew _ _ h

mutual
theorem mem_collect_one (m : ResponseMapping) : ∀ (acc : List Str) (x : Str),
    x ∈ collect_used_one acc m ↔ x ∈ acc ∨ x ∈ used_one m := by
  match m with
  | .mk f src rt st join jc agg fields =>
    intro acc x
    cases fields with
    | none =>
      show x ∈ collect_chain_stage (collect_join_stage (collect_source_stage acc src) join) jc
        ↔ x ∈ acc ∨ x ∈ (source_part src ++ join_part join ++ chain_part jc)
      rw [mem_collect_chain_stage, mem_collect_join_stage, mem_collect_source_stage]
      simp only [List.mem_append]
      tauto
    | some sub =>
      show x ∈ (collect_used_list [] sub).foldl pushNew
          (collect_chain_stage (collect_join_stage (collect_source_stage acc src) join) jc)
        ↔ x ∈ acc ∨ x ∈ (source_part src ++ join_part join ++ chain_part jc ++ used_list sub)
      rw [mem_foldl_pushNew, mem_collect_chain_stage, mem_collect_join_stage,
        mem_collect_source_stage, mem_collect_list sub]
      simp only [List.mem_append, List.not_mem_nil, false_or]
      tauto

theorem mem_collect_list (ms : RMList) : ∀ (acc : List Str) (x : Str),
    x ∈ collect_used_list acc ms ↔ x ∈ acc ∨ x ∈ used_list ms := by
  match ms with
  | .nil =>
    intro acc x
    show x ∈ acc ↔ x ∈ acc ∨ x ∈ ([] : List Str)
    simp
  | .cons m rest =>
    intro acc x
    show x ∈ collect_used_list (collect_used_one acc m) rest
      ↔ x ∈ acc ∨ x ∈ used_one m ++ used_list rest
    rw [mem_collect_list rest, mem_collect_one m, List.mem_append]
    tauto
end

theorem nodup_collect_one (m : ResponseMapping) : ∀ acc : List Str, acc.Nodup →
    (collect_used_one acc m).Nodup := by
  match m with
  | .mk f src rt st join jc agg fields =>
    intro acc h
    cases fields with
    | none =>
      show (collect_chain_stage (collect_join_stage (collect_source_stage acc src) join)
        jc).Nodup
      exact nodup_collect_chain_stage jc (nodup_collect_join_stage join
        (nodup_collect_source_stage src h))
    | some sub =>
      show ((collect_used_list [] sub).foldl pushNew
        (collect_chain_stage (collect_join_stage (collect_source_stage acc src) join)
          jc)).Nodup
      exact nodup_foldl_pushNew _ _ (nodup_collect_chain_stage jc
        (nodup_collect_join_stage join (nodup_collect_source_stage src h)))

theorem nodup_collect_list (ms : RMList) : ∀ acc : List Str, acc.Nodup →
    (collect_used_list acc ms).Nodup := by
  match ms with
  | .nil => intro acc h; exact h
  | .cons m rest =>
    intro acc h
    show (collect_used_list (collect_used_one acc m) rest).Nodup
    exact nodup_collect_list rest _ (nodup_collect_one m acc h)

theorem count_validate_imports (doc : UsmlDocument) (imp : List Str) (t : Str) :
    (validate_imports doc imp).count
        (ValidationError.Rule R_import_dbml (msg_import_dbml t)) =
      if t ∈ collect_used_tables doc.usecase.response_mapping ∧ t ∉ imp then 1 else 0 := by
  unfold validate_imports
  have hnd : (collect_used_tables doc.usecase.response_mapping).Nodup :=
    nodup_collect_list _ [] List.nodup_nil
  generalize collect_used_tables doc.usecase.response_mapping = L at hnd ⊢
  induction L with
  | nil => simp
  | cons a L ih =>
    obtain ⟨hanl, hnd'⟩ := List.nodup_cons.mp hnd
    by_cases ha : a ∈ imp
    · rw [show List.filterMap
            (fun table => if table ∈ imp then none
              else some (ValidationError.Rule R_import_dbml (msg_import_dbml table))) (a :: L)
          = List.filterMap
            (fun table => if table ∈ imp then none
              else some (ValidationError.Rule R_import_dbml (msg_import_dbml table))) L from by
        rw [List.filterMap_cons, if_pos ha]]
      rw [ih hnd']
      by_cases hta : t = a
      · subst hta
        simp [ha]
      · simp [List.mem_cons, hta]
    · rw [show List.filterMap
            (fun table => if table ∈ imp then none
              else some (ValidationError.Rule R_import_dbml (msg_import_dbml table))) (a :: L)
          = ValidationError.Rule R_import_dbml (msg_import_dbml a) :: List.filterMap
            (fun table => if table ∈ imp then none
              else some (ValidationError.Rule R_import_dbml (msg_import_dbml table))) L from by
        rw [List.filterMap_cons, if_neg ha]]
      rw [List.count_cons, ih hnd']
      by_cases hta : t = a
      · subst hta
        simp [hanl, ha]
      · have hmsg : ¬ (msg_import_dbml t = msg_import_dbml a) :=
          fun hm => hta (msg_import_dbml_inj hm)
        have hmsg2 : ¬ (msg_import_dbml a = msg_import_dbml t) := fun hm => hmsg hm.symm
        simp [List.mem_cons, hta, ValidationError.Rule.injEq, hmsg, hmsg2]

/-! ## Zero-count helpers and the `validate` decomposition -/

theorem validate_eq (doc : UsmlDocument) :
    validate doc = validate_imports doc (parse_imported_tables doc)
      ++ (validate_response_mapping_inner (parse_imported_tables doc)
            doc.usecase.response_mapping []).2
      ++ validate_filters doc ++ validate_transforms doc := rfl

theorem errRule_rule_ne {A B C : Str} (h : ¬ A = C) :
    errRule (ValidationError.Rule A B) ≠ C := h

theorem rule_ne_of_ruleid {A B C D : Str} (h : ¬ A = C) :
    ValidationError.Rule A B ≠ ValidationError.Rule C D :=
  fun he => h (by cases he; rfl)

theorem count_imports_eq_zero {doc : UsmlDocument} {imp : List Str} {d : ValidationError}
    (h1 : errRule d ≠ R_import_dbml) : (validate_imports doc imp).count d = 0 :=
  List.count_eq_zero.mpr fun hmem => h1 (errRule_validate_imports hmem)

theorem count_vrm_eq_zero {imp : List Str} {ms : RMList} {jm : JoinMap} {d : ValidationError}
    (h1 : errRule d ≠ R_join_alias) (h2 : errRule d ≠ R_join_on)
    (h3 : errRule d ≠ R_join_chain_on) (h4 : errRule d ≠ R_aggregate_group_by)
    (h5 : errRule d ≠ R_source_table) :
    (validate_response_mapping_inner imp ms jm).2.count d = 0 :=
  List.count_eq_zero.mpr fun hmem => by
    rcases errRule_vrm_list imp ms jm d hmem with h | h | h | h | h
    exacts [h1 h, h2 h, h3 h, h4 h, h5 h]

theorem count_filters_eq_zero {doc : UsmlDocument} {d : ValidationError}
    (h1 : errRule d ≠ R_filters_condition) (h2 : errRule d ≠ R_filters_allowed) :
    (validate_filters doc).count d = 0 :=
  List.count_eq_zero.mpr fun hmem => by
    rcases errRule_validate_filters hmem with h | h
    exacts [h1 h, h2 h]

theorem count_transforms_eq_zero {doc : UsmlDocument} {d : ValidationError}
    (h1 : ∀ t, d ≠ .Rule R_transforms_target (msg_transforms_target t))
    (h2 : ∀ t, d ≠ .Warning R_transforms_condition_param (msg_transform_param_warn t)) :
    (validate_transforms doc).count d = 0 :=
  List.count_eq_zero.mpr fun hmem => by
    rcases errRule_validate_transforms hmem with ⟨t, h⟩ | ⟨t, h⟩
    exacts [h1 t h, h2 t h]

/-! ## Claim C7 -/

/-- C7: for every document and every table name referenced by some `source`,
`join.table` or `joinChain[].table` anywhere in the mapping tree (`used_list`),
`validate` emits exactly one `import.dbml` Rule diagnostic for that distinct
table name when it is absent from the extracted imported table names,
regardless of how many fields reference it — and none otherwise. -/
theorem C7_import_coverage_unique (doc : UsmlDocument) (t : Str) :
    (validate doc).count (ValidationError.Rule R_import_dbml (msg_import_dbml t)) =
      if t ∈ used_list doc.usecase.response_mapping ∧ t ∉ parse_imported_tables doc
      then 1 else 0 := by
  have z2 : (validate_response_mapping_inner (parse_imported_tables doc)
      doc.usecase.response_mapping []).2.count
        (ValidationError.Rule R_import_dbml (msg_import_dbml t)) = 0 :=
    count_vrm_eq_zero (errRule_rule_ne (by decide)) (errRule_rule_ne (by decide))
      (errRule_rule_ne (by decide)) (errRule_rule_ne (by decide))
      (errRule_rule_ne (by decide))
  have z3 : (validate_filters doc).count
      (ValidationError.Rule R_import_dbml (msg_import_dbml t)) = 0 :=
    count_filters_eq_zero (errRule_rule_ne (by decide)) (errRule_rule_ne (by decide))
  have z4 : (validate_transforms doc).count
      (ValidationError.Rule R_import_dbml (msg_import_dbml t)) = 0 :=
    count_transforms_eq_zero
      (fun u => rule_ne_of_ruleid (by decide))
      (fun u h => ValidationError.noConfusion h)
  rw [validate_eq, List.count_append, List.count_append, List.count_append,
    count_validate_imports, z2, z3, z4]
  have hmm : t ∈ collect_used_tables doc.usecase.response_mapping
      ↔ t ∈ used_list doc.usecase.response_mapping := by
    rw [collect_used_tables, mem_collect_list]
    simp
  simp [hmm]

/-! ## Claim C1 -/

theorem count_transform_target_check (F : List Str) (tr : Transform) (g : Str) :
    (transform_target_check F tr).count
        (ValidationError.Rule R_transforms_target (msg_transforms_target g)) =
      if tr.target = g ∧ g ∉ F then 1 else 0 := by
  unfold transform_target_check
  by_cases hin : tr.target ∈ F
  · rw [if_pos hin]
    by_cases htg : tr.target = g
    · subst htg
      simp [hin]
    · simp [htg]
  · rw [if_neg hin]
    by_cases htg : tr.target = g
    · subst htg
      simp [hin, List.count_cons]
    · have hmsg : ¬ (msg_transforms_target tr.target = msg_transforms_target g) :=
        fun hm => htg (msg_transforms_target_inj hm)
      simp [htg, List.count_cons, ValidationError.Rule.injEq, hmsg]

theorem count_transform_condition_warnings_target (tr : Transform) (g : Str) :
    (transform_condition_warnings tr).count
        (ValidationError.Rule R_transforms_target (msg_transforms_target g)) = 0 :=
  List.count_eq_zero.mpr fun hmem =>
    ValidationError.noConfusion (mem_transform_condition_warnings hmem)

theorem count_validate_transforms_target (doc : UsmlDocument) (g : Str) :
    (validate_transforms doc).count
        (ValidationError.Rule R_transforms_target (msg_transforms_target g)) =
      if g ∈ rmTopFields doc.usecase.response_mapping then 0
      else (doc.usecase.transforms.filter fun tr => tr.target == g).length := by
  show (doc.usecase.transforms.flatMap fun tr =>
      transform_target_check (rmTopFields doc.usecase.response_mapping) tr
        ++ transform_condition_warnings tr).count
      (ValidationError.Rule R_transforms_target (msg_transforms_target g)) = _
  generalize rmTopFields doc.usecase.response_mapping = F
  generalize doc.usecase.transforms = L
  induction L with
  | nil => simp
  | cons tr L ih =>
    rw [List.flatMap_cons, List.count_append, List.count_append,
      count_transform_target_check, count_transform_condition_warnings_target, ih]
    by_cases hg : g ∈ F
    · simp [hg]
    · by_cases htg : tr.target = g
      · simp [hg, htg, List.filter_cons]
        omega
      · simp [hg, htg, List.filter_cons]

/-- C1 (amended): the transform-target-exists rule of `validate` matches each
transform's `target` only against the top-level response-mapping field names:
a `transforms.target` Rule diagnostic naming `g` is emitted once per transform
whose target is `g` when `g` is not a top-level field name, and never when `g`
is a top-level field name — nested (array sub-field) names do not satisfy the
rule. -/
theorem C1_transform_target_top_level_only (doc : UsmlDocument) (g : Str) :
    (validate doc).count
        (ValidationError.Rule R_transforms_target (msg_transforms_target g)) =
      if g ∈ rmTopFields doc.usecase.response_mapping then 0
      else (doc.usecase.transforms.filter fun tr => tr.target == g).length := by
  have z1 : (validate_imports doc (parse_imported_tables doc)).count
      (ValidationError.Rule R_transforms_target (msg_transforms_target g)) = 0 :=
    count_imports_eq_zero (errRule_rule_ne (by decide))
  have z2 : (validate_response_mapping_inner (parse_imported_tables doc)
      doc.usecase.response_mapping []).2.count
        (ValidationError.Rule R_transforms_target (msg_transforms_target g)) = 0 :=
    count_vrm_eq_zero (errRule_rule_ne (by decide)) (errRule_rule_ne (by decide))
      (errRule_rule_ne (by decide)) (errRule_rule_ne (by decide))
      (errRule_rule_ne (by decide))
  have z3 : (validate_filters doc).count
      (ValidationError.Rule R_transforms_target (msg_transforms_target g)) = 0 :=
    count_filters_eq_zero (errRule_rule_ne (by decide)) (errRule_rule_ne (by decide))
  rw [validate_eq, List.count_append, List.count_append, List.count_append,
    z1, z2, z3, count_validate_transforms_target]
  simp

/-- C1 counterexample: in `docNested` the name `x` is a response-mapping field
at nesting depth two (member of the depth-flattened name list), a transform
targets `x`, and `validate` nevertheless emits the `transforms.target`
diagnostic for it — refuting the claim that a target matching a field at any
depth is accepted. -/
theorem C1_counterexample :
    (("x").data) ∈ fields_list docNested.usecase.response_mapping ∧
    docNested.usecase.transforms.map Transform.target = [("x").data] ∧
    ValidationError.Rule R_transforms_target (msg_transforms_target (("x").data))
      ∈ validate docNested := by
  decide

/-! ## Claim C4: counting rule-6 diagnostics -/

theorem count_rule6_join_on (imp : List Str) (join : Option Join) (t : Str) :
    (rule6_join_on imp join).count (ValidationError.Rule R_join_on (msg_join_on t)) =
      if t ∈ imp then 0 else join_on_tokens t join := by
  cases join with
  | none => simp [rule6_join_on, join_on_tokens]
  | some j =>
    rw [show rule6_join_on imp (some j) = (extract_table_refs j.«on»).filterMap (fun tc =>
        if j.«alias» = some tc.1 then none
        else if tc.1 ∈ imp then none
        else some (ValidationError.Rule R_join_on (msg_join_on tc.1))) from rfl]
    rw [count_filterMap]
    rw [show join_on_tokens t (some j) = (if j.«alias» = some t then 0
        else ((extract_table_refs j.«on»).filter fun tc => tc.1 == t).length) from rfl]
    by_cases ht : t ∈ imp
    · rw [if_pos ht]
      have hall : ∀ tc ∈ extract_table_refs j.«on»,
          ((if j.«alias» = some tc.1 then none
            else if tc.1 ∈ imp then none
            else some (ValidationError.Rule R_join_on (msg_join_on tc.1)))
            == some (ValidationError.Rule R_join_on (msg_join_on t)))
            = (fun _ => false) tc := by
        intro tc _
        by_cases h1 : j.«alias» = some tc.1
        · rw [if_pos h1]; rfl
        · rw [if_neg h1]
          by_cases h2 : tc.1 ∈ imp
          · rw [if_pos h2]; rfl
          · rw [if_neg h2]
            have hne : ¬ (msg_join_on tc.1 = msg_join_on t) :=
              fun hm => h2 ((msg_join_on_inj hm) ▸ ht)
            simp [ValidationError.Rule.injEq, hne]
      rw [List.filter_congr hall]
      simp
    · rw [if_neg ht]
      by_cases ha : j.«alias» = some t
      · rw [if_pos ha]
        have hall : ∀ tc ∈ extract_table_refs j.«on»,
            ((if j.«alias» = some tc.1 then none
              else if tc.1 ∈ imp then none
              else some (ValidationError.Rule R_join_on (msg_join_on tc.1)))
              == some (ValidationError.Rule R_join_on (msg_join_on t)))
              = (fun _ => false) tc := by
          intro tc _
          by_cases h1 : j.«alias» = some tc.1
          · rw [if_pos h1]; rfl
          · rw [if_neg h1]
            by_cases h2 : tc.1 ∈ imp
            · rw [if_pos h2]; rfl
            · rw [if_neg h2]
              have hne : ¬ (msg_join_on tc.1 = msg_join_on t) := by
                intro hm
                apply h1
                rw [msg_join_on_inj hm]
                exact ha
              simp [ValidationError.Rule.injEq, hne]
        rw [List.filter_congr hall]
        simp
      · rw [if_neg ha]
        have hall : ∀ tc ∈ extract_table_refs j.«on»,
            ((if j.«alias» = some tc.1 then none
              else if tc.1 ∈ imp then none
              else some (ValidationError.Rule R_join_on (msg_join_on tc.1)))
              == some (ValidationError.Rule R_join_on (msg_join_on t)))
              = (fun tc => tc.1 == t) tc := by
          intro tc _
          by_cases h1 : j.«alias» = some tc.1
          · rw [if_pos h1]
            have hne : ¬ (tc.1 = t) := fun he => ha (he ▸ h1)
            simp [hne]
          · rw [if_neg h1]
            by_cases h2 : tc.1 ∈ imp
            · rw [if_pos h2]
              have hne : ¬ (tc.1 = t) := fun he => ht (he ▸ h2)
              simp [hne]
            · rw [if_neg h2]
              by_cases hte : tc.1 = t
              · subst hte
                simp
              · have hne : ¬ (msg_join_on tc.1 = msg_join_on t) :=
                  fun hm => hte (msg_join_on_inj hm)
                simp [hte, ValidationError.Rule.injEq, hne]
        rw [List.filter_congr hall]

theorem rule6_join_chain_eq (imp : List Str) (chain : List JoinChainEntry) :
    rule6_join_chain imp (some chain) =
      ((chain.flatMap fun e => extract_table_refs e.«on»).filterMap fun tc =>
        if tc.1 ∈ imp then none
        else some (ValidationError.Rule R_join_chain_on (msg_join_chain_on tc.1))) := by
  induction chain with
  | nil => rfl
  | cons e chain ih =>
    show (extract_table_refs e.«on»).filterMap _ ++ rule6_join_chain imp (some chain) = _
    rw [ih, List.flatMap_cons, List.filterMap_append]

theorem count_rule6_join_chain (imp : List Str) (jc : Option (List JoinChainEntry)) (t : Str) :
    (rule6_join_chain imp jc).count
        (ValidationError.Rule R_join_chain_on (msg_join_chain_on t)) =
      if t ∈ imp then 0 else chain_tokens t jc := by
  cases jc with
  | none => simp [rule6_join_chain, chain_tokens]
  | some chain =>
    rw [rule6_join_chain_eq, count_filterMap]
    rw [show chain_tokens t (some chain)
        = ((chain.flatMap fun e => extract_table_refs e.«on»).filter
            fun tc => tc.1 == t).length from rfl]
    by_cases ht : t ∈ imp
    · rw [if_pos ht]
      have hall : ∀ tc ∈ (chain.flatMap fun e => extract_table_refs e.«on»),
          ((if tc.1 ∈ imp then none
            else some (ValidationError.Rule R_join_chain_on (msg_join_chain_on tc.1)))
            == some (ValidationError.Rule R_join_chain_on (msg_join_chain_on t)))
            = (fun _ => false) tc := by
        intro tc _
        by_cases h2 : tc.1 ∈ imp
        · rw [if_pos h2]; rfl
        · rw [if_neg h2]
          have hne : ¬ (msg_join_chain_on tc.1 = msg_join_chain_on t) :=
            fun hm => h2 ((msg_join_chain_on_inj hm) ▸ ht)
          simp [ValidationError.Rule.injEq, hne]
      rw [List.filter_congr hall]
      simp
    · rw [if_neg ht]
      have hall : ∀ tc ∈ (chain.flatMap fun e => extract_table_refs e.«on»),
          ((if tc.1 ∈ imp then none
            else some (ValidationError.Rule R_join_chain_on (msg_join_chain_on tc.1)))
            == some (ValidationError.Rule R_join_chain_on (msg_join_chain_on t)))
            = (fun tc => tc.1 == t) tc := by
        intro tc _
        by_cases h2 : tc.1 ∈ imp
        · rw [if_pos h2]
          have hne : ¬ (tc.1 = t) := fun he => ht (he ▸ h2)
          simp [hne]
        · rw [if_neg h2]
          by_cases hte : tc.1 = t
          · subst hte
            simp
          · have hne : ¬ (msg_join_chain_on tc.1 = msg_join_chain_on t) :=
              fun hm => hte (msg_join_chain_on_inj hm)
            simp [hte, ValidationError.Rule.injEq, hne]
      rw [List.filter_congr hall]

theorem count_rule7_zero_joinOn (jm : JoinMap) (join : Option Join) (t : Str) :
    (rule7_join_alias jm join).2.count (ValidationError.Rule R_join_on (msg_join_on t)) = 0 :=
  List.count_eq_zero.mpr fun hm =>
    absurd (errRule_rule7 hm) (show ¬ (R_join_on = R_join_alias) by decide)

theorem count_rule7_zero_chainOn (jm : JoinMap) (join : Option Join) (t : Str) :
    (rule7_join_alias jm join).2.count
      (ValidationError.Rule R_join_chain_on (msg_join_chain_on t)) = 0 :=
  List.count_eq_zero.mpr fun hm =>
    absurd (errRule_rule7 hm) (show ¬ (R_join_chain_on = R_join_alias) by decide)

theorem count_rule6chain_zero_joinOn (imp : List Str) (jc : Option (List JoinChainEntry))
    (t : Str) :
    (rule6_join_chain imp jc).count (ValidationError.Rule R_join_on (msg_join_on t)) = 0 :=
  List.count_eq_zero.mpr fun hm =>
    absurd (errRule_rule6_join_chain hm).1 (show ¬ (R_join_on = R_join_chain_on) by decide)

theorem count_rule6on_zero_chainOn (imp : List Str) (join : Option Join) (t : Str) :
    (rule6_join_on imp join).count
      (ValidationError.Rule R_join_chain_on (msg_join_chain_on t)) = 0 :=
  List.count_eq_zero.mpr fun hm =>
    absurd (errRule_rule6_join_on hm).1 (show ¬ (R_join_chain_on = R_join_on) by decide)

theorem count_rule8_zero_joinOn (field : Str) (agg : Option Aggregate) (t : Str) :
    (rule8_aggregate field agg).count (ValidationError.Rule R_join_on (msg_join_on t)) = 0 :=
  List.count_eq_zero.mpr fun hm => by
    obtain ⟨-, m, hmw⟩ := errRule_rule8 hm
    exact ValidationError.noConfusion hmw

theorem count_rule8_zero_chainOn (field : Str) (agg : Option Aggregate) (t : Str) :
    (rule8_aggregate field agg).count
      (ValidationError.Rule R_join_chain_on (msg_join_chain_on t)) = 0 :=
  List.count_eq_zero.mpr fun hm => by
    obtain ⟨-, m, hmw⟩ := errRule_rule8 hm
    exact ValidationError.noConfusion hmw

theorem count_rule11_zero_joinOn (field : Str) (rtype source_table : Option Str)
    (join : Option Join) (jc : Option (List JoinChainEntry)) (t : Str) :
    (rule11_source_table field rtype source_table join jc).count
      (ValidationError.Rule R_join_on (msg_join_on t)) = 0 :=
  List.count_eq_zero.mpr fun hm =>
    absurd (errRule_rule11 hm) (show ¬ (R_join_on = R_source_table) by decide)

theorem count_rule11_zero_chainOn (field : Str) (rtype source_table : Option Str)
    (join : Option Join) (jc : Option (List JoinChainEntry)) (t : Str) :
    (rule11_source_table field rtype source_table join jc).count
      (ValidationError.Rule R_join_chain_on (msg_join_chain_on t)) = 0 :=
  List.count_eq_zero.mpr fun hm =>
    absurd (errRule_rule11 hm) (show ¬ (R_join_chain_on = R_source_table) by decide)

mutual
theorem count_join_on_one (imp : List Str) (m : ResponseMapping) (jm : JoinMap) (t : Str) :
    (validate_mapping_node imp m jm).2.count
        (ValidationError.Rule R_join_on (msg_join_on t)) =
      if t ∈ imp then 0 else join_on_tokens_one t m := by
  match m with
  | .mk field src rtype st join jc agg fields =>
    cases fields with
    | none =>
      show ((rule7_join_alias jm join).2 ++ rule6_join_on imp join
          ++ rule6_join_chain imp jc ++ rule8_aggregate field agg
          ++ rule11_source_table field rtype st join jc ++ ([] : List ValidationError)).count
          (ValidationError.Rule R_join_on (msg_join_on t))
        = if t ∈ imp then 0 else join_on_tokens t join
      rw [List.count_append, List.count_append, List.count_append, List.count_append,
        List.count_append, count_rule7_zero_joinOn, count_rule6_join_on,
        count_rule6chain_zero_joinOn, count_rule8_zero_joinOn, count_rule11_zero_joinOn]
      simp
    | some s =>
      show ((rule7_join_alias jm join).2 ++ rule6_join_on imp join
          ++ rule6_join_chain imp jc ++ rule8_aggregate field agg
          ++ rule11_source_table field rtype st join jc
          ++ (validate_response_mapping_inner imp s (rule7_join_alias jm join).1).2).count
          (ValidationError.Rule R_join_on (msg_join_on t))
        = if t ∈ imp then 0 else join_on_tokens t join + join_on_tokens_list t s
      rw [List.count_append, List.count_append, List.count_append, List.count_append,
        List.count_append, count_rule7_zero_joinOn, count_rule6_join_on,
        count_rule6chain_zero_joinOn, count_rule8_zero_joinOn, count_rule11_zero_joinOn,
        count_join_on_list imp s _ t]
      by_cases ht : t ∈ imp <;> simp [ht]

theorem count_join_on_list (imp : List Str) (ms : RMList) (jm : JoinMap) (t : Str) :
    (validate_response_mapping_inner imp ms jm).2.count
        (ValidationError.Rule R_join_on (msg_join_on t)) =
      if t ∈ imp then 0 else join_on_tokens_list t ms := by
  match ms with
  | .nil =>
    show (([] : List ValidationError)).count (ValidationError.Rule R_join_on (msg_join_on t))
      = if t ∈ imp then 0 else 0
    simp
  | .cons m rest =>
    show ((validate_mapping_node imp m jm).2
        ++ (validate_response_mapping_inner imp rest (validate_mapping_node imp m jm).1).2).count
        (ValidationError.Rule R_join_on (msg_join_on t))
      = if t ∈ imp then 0 else join_on_tokens_one t m + join_on_tokens_list t rest
    rw [List.count_append, count_join_on_one imp m jm t, count_join_on_list imp rest _ t]
    by_cases ht : t ∈ imp <;> simp [ht]
end

mutual
theorem count_chain_on_one (imp : List Str) (m : ResponseMapping) (jm : JoinMap) (t : Str) :
    (validate_mapping_node imp m jm).2.count
        (ValidationError.Rule R_join_chain_on (msg_join_chain_on t)) =
      if t ∈ imp then 0 else chain_tokens_one t m := by
  match m with
  | .mk field src rtype st join jc agg fields =>
    cases fields with
    | none =>
      show ((rule7_join_alias jm join).2 ++ rule6_join_on imp join
          ++ rule6_join_chain imp jc ++ rule8_aggregate field agg
          ++ rule11_source_table field rtype st join jc ++ ([] : List ValidationError)).count
          (ValidationError.Rule R_join_chain_on (msg_join_chain_on t))
        = if t ∈ imp then 0 else chain_tokens t jc
      rw [List.count_append, List.count_append, List.count_append, List.count_append,
        List.count_append, count_rule7_zero_chainOn, count_rule6on_zero_chainOn,
        count_rule6_join_chain, count_rule8_zero_chainOn, count_rule11_zero_chainOn]
      simp
    | some s =>
      show ((rule7_join_alias jm join).2 ++ rule6_join_on imp join
          ++ rule6_join_chain imp jc ++ rule8_aggregate field agg
          ++ rule11_source_table field rtype st join jc
          ++ (validate_response_mapping_inner imp s (rule7_join_alias jm join).1).2).count
          (ValidationError.Rule R_join_chain_on (msg_join_chain_on t))
        = if t ∈ imp then 0 else chain_tokens t jc + chain_tokens_list t s
      rw [List.count_append, List.count_append, List.count_append, List.count_append,
        List.count_append, count_rule7_zero_chainOn, count_rule6on_zero_chainOn,
        count_rule6_join_chain, count_rule8_zero_chainOn, count_rule11_zero_chainOn,
        count_chain_on_list imp s _ t]
      by_cases ht : t ∈ imp <;> simp [ht]

theorem count_chain_on_list (imp : List Str) (ms : RMList) (jm : JoinMap) (t : Str) :
    (validate_response_mapping_inner imp ms jm).2.count
        (ValidationError.Rule R_join_chain_on (msg_join_chain_on t)) =
      if t ∈ imp then 0 else chain_tokens_list t ms := by
  match ms with
  | .nil =>
    show (([] : List ValidationError)).count
        (ValidationError.Rule R_join_chain_on (msg_join_chain_on t))
      = if t ∈ imp then 0 else 0
    simp
  | .cons m rest =>
    show ((validate_mapping_node imp m jm).2
        ++ (validate_response_mapping_inner imp rest (validate_mapping_node imp m jm).1).2).count
        (ValidationError.Rule R_join_chain_on (msg_join_chain_on t))
      = if t ∈ imp then 0 else chain_tokens_one t m + chain_tokens_list t rest
    rw [List.count_append, count_chain_on_one imp m jm t, count_chain_on_list imp rest _ t]
    by_cases ht : t ∈ imp <;> simp [ht]
end

/-- C4 (amended): in `validate`, the alias exemption of the join-on-references
rule applies only to `join.on` tokens — a `join.on` token whose table part
equals the join's declared alias is skipped — while `joinChain[].on` tokens
receive no alias exemption: for a table name `t` absent from the imported
names, `validate` emits one `join.on` diagnostic per accepted non-exempt
`join.on` token with table `t` and one `join_chain.on` diagnostic per accepted
`joinChain[].on` token with table `t`, alias or not. -/
theorem C4_join_on_alias_exemption_scope (doc : UsmlDocument) (t : Str) :
    ((validate doc).count (ValidationError.Rule R_join_on (msg_join_on t)) =
      if t ∈ parse_imported_tables doc then 0
      else join_on_tokens_list t doc.usecase.response_mapping)
    ∧ ((validate doc).count (ValidationError.Rule R_join_chain_on (msg_join_chain_on t)) =
      if t ∈ parse_imported_tables doc then 0
      else chain_tokens_list t doc.usecase.response_mapping) := by
  constructor
  · have z1 : (validate_imports doc (parse_imported_tables doc)).count
        (ValidationError.Rule R_join_on (msg_join_on t)) = 0 :=
      count_imports_eq_zero (errRule_rule_ne (by decide))
    have z3 : (validate_filters doc).count
        (ValidationError.Rule R_join_on (msg_join_on t)) = 0 :=
      count_filters_eq_zero (errRule_rule_ne (by decide)) (errRule_rule_ne (by decide))
    have z4 : (validate_transforms doc).count
        (ValidationError.Rule R_join_on (msg_join_on t)) = 0 :=
      count_transforms_eq_zero (fun u => rule_ne_of_ruleid (by decide))
        (fun u h => ValidationError.noConfusion h)
    rw [validate_eq, List.count_append, List.count_append, List.count_append, z1, z3, z4,
      count_join_on_list]
    simp
  · have z1 : (validate_imports doc (parse_imported_tables doc)).count
        (ValidationError.Rule R_join_chain_on (msg_join_chain_on t)) = 0 :=
      count_imports_eq_zero (errRule_rule_ne (by decide))
    have z3 : (validate_filters doc).count
        (ValidationError.Rule R_join_chain_on (msg_join_chain_on t)) = 0 :=
      count_filters_eq_zero (errRule_rule_ne (by decide)) (errRule_rule_ne (by decide))
    have z4 : (validate_transforms doc).count
        (ValidationError.Rule R_join_chain_on (msg_join_chain_on t)) = 0 :=
      count_transforms_eq_zero (fun u => rule_ne_of_ruleid (by decide))
        (fun u h => ValidationError.noConfusion h)
    rw [validate_eq, List.count_append, List.count_append, List.count_append, z1, z3, z4,
      count_chain_on_list]
    simp

/-- C4 counterexample: in `docChainAlias` the single join declares alias `u`,
its `join_chain` condition references `u.id`, and `u` is not among the imported
table names; the claim exempts such tokens, yet `validate` emits the
`join_chain.on` diagnostic naming `u`. -/
theorem C4_counterexample :
    (joins_list docChainAlias.usecase.response_mapping).map Join.«alias»
      = [some (("u").data)] ∧
    (("u").data) ∉ parse_imported_tables docChainAlias ∧
    ValidationError.Rule R_join_chain_on (msg_join_chain_on (("u").data))
      ∈ validate docChainAlias := by
  decide

/-! ## Claim C6: the join-alias registry -/

theorem jmFind_insert (jm : JoinMap) (k t : Str) (v : Str × Option Str) :
    jmFind (jmInsert jm k v) t = if k = t then some v else jmFind jm t := rfl

theorem headEntry_append (l1 l2 : List Join) :
    headEntry (l1 ++ l2) = match headEntry l1 with
      | some v => some v
      | none => headEntry l2 := by
  cases l1 <;> rfl

theorem firstJoinFor_append (t : Str) (l1 l2 : List Join) :
    firstJoinFor t (l1 ++ l2) = match firstJoinFor t l1 with
      | some v => some v
      | none => firstJoinFor t l2 := by
  unfold firstJoinFor
  rw [List.filter_append, headEntry_append]

theorem rule7_eq (jm : JoinMap) (j : Join) :
    rule7_join_alias jm (some j) = (match jmFind jm j.table with
      | some ea =>
        if ea.1 ≠ j.«on» ∧ j.«alias» = none ∧ ea.2 = none
        then (jm, [ValidationError.Rule R_join_alias (msg_join_alias j.table)])
        else (jm, [])
      | none => (jmInsert jm j.table (j.«on», j.«alias»), [])) := rfl

theorem jm_after_rule7 (jm : JoinMap) (join : Option Join) (t : Str) :
    jmFind (rule7_join_alias jm join).1 t =
      match jmFind jm t with
      | some v => some v
      | none => firstJoinFor t (opt_join_list join) := by
  cases join with
  | none =>
    show jmFind jm t = _
    cases hg : jmFind jm t with
    | some v => rfl
    | none => rfl
  | some j =>
    cases hf : jmFind jm j.table with
    | some ea =>
      have heq : rule7_join_alias jm (some j)
          = if ea.1 ≠ j.«on» ∧ j.«alias» = none ∧ ea.2 = none
            then (jm, [ValidationError.Rule R_join_alias (msg_join_alias j.table)])
            else (jm, ([] : List ValidationError)) := by
        rw [rule7_eq, hf]
      have h1 : (rule7_join_alias jm (some j)).1 = jm := by
        rw [heq]
        split <;> rfl
      rw [h1]
      by_cases hjt : j.table = t
      · subst hjt
        rw [hf]
      · cases hg : jmFind jm t with
        | some v => rfl
        | none => simp [firstJoinFor, opt_join_list, headEntry, List.filter_cons, hjt]
    | none =>
      have h1 : (rule7_join_alias jm (some j)).1
          = jmInsert jm j.table (j.«on», j.«alias») := by
        rw [rule7_eq, hf]
      rw [h1, jmFind_insert]
      by_cases hjt : j.table = t
      · rw [if_pos hjt]
        subst hjt
        rw [hf]
        simp [firstJoinFor, opt_join_list, headEntry, List.filter_cons]
      · rw [if_neg hjt]
        cases hg : jmFind jm t with
        | some v => rfl
        | none => simp [firstJoinFor, opt_join_list, headEntry, List.filter_cons, hjt]

mutual
theorem jm_after_one (imp : List Str) (m : ResponseMapping) (jm : JoinMap) (t : Str) :
    jmFind (validate_mapping_node imp m jm).1 t =
      match jmFind jm t with
      | some v => some v
      | none => firstJoinFor t (joins_one m) := by
  match m with
  | .mk field src rtype st join jc agg fields =>
    cases fields with
    | none =>
      show jmFind (rule7_join_alias jm join).1 t = match jmFind jm t with
        | some v => some v
        | none => firstJoinFor t (opt_join_list join)
      exact jm_after_rule7 jm join t
    | some s =>
      show jmFind (validate_response_mapping_inner imp s (rule7_join_alias jm join).1).1 t
        = match jmFind jm t with
          | some v => some v
          | none => firstJoinFor t (opt_join_list join ++ joins_list s)
      rw [jm_after_list imp s _ t, jm_after_rule7 jm join t, firstJoinFor_append]
      cases jmFind jm t with
      | some v => rfl
      | none =>
        cases firstJoinFor t (opt_join_list join) with
        | some v => rfl
        | none => rfl

theorem jm_after_list (imp : List Str) (ms : RMList) (jm : JoinMap) (t : Str) :
    jmFind (validate_response_mapping_inner imp ms jm).1 t =
      match jmFind jm t with
      | some v => some v
      | none => firstJoinFor t (joins_list ms) := by
  match ms with
  | .nil =>
    show jmFind jm t = _
    cases hg : jmFind jm t with
    | some v => rfl
    | none => rfl
  | .cons m rest =>
    show jmFind (validate_response_mapping_inner imp rest
        (validate_mapping_node imp m jm).1).1 t = _
    rw [jm_after_list imp rest _ t, jm_after_one imp m jm t,
      show joins_list (RMList.cons m rest) = joins_one m ++ joins_list rest from rfl,
      firstJoinFor_append]
    cases jmFind jm t with
    | some v => rfl
    | none =>
      cases firstJoinFor t (joins_one m) with
      | some v => rfl
      | none => rfl
end

theorem mem_rule7_shape {jm : JoinMap} {j : Join} {e : ValidationError}
    (h : e ∈ (rule7_join_alias jm (some j)).2) :
    e = ValidationError.Rule R_join_alias (msg_join_alias j.table)
      ∧ ∃ ea, jmFind jm j.table = some ea ∧ ea.1 ≠ j.«on» ∧ j.«alias» = none ∧ ea.2 = none := by
  cases hf : jmFind jm j.table with
  | some ea =>
    have heq : rule7_join_alias jm (some j)
        = if ea.1 ≠ j.«on» ∧ j.«alias» = none ∧ ea.2 = none
          then (jm, [ValidationError.Rule R_join_alias (msg_join_alias j.table)])
          else (jm, ([] : List ValidationError)) := by
      rw [rule7_eq, hf]
    rw [heq] at h
    split_ifs at h with hc
    · replace h : e ∈ [ValidationError.Rule R_join_alias (msg_join_alias j.table)] := h
      rw [List.mem_singleton] at h
      subst h
      exact ⟨rfl, ea, rfl, hc⟩
    · replace h : e ∈ ([] : List ValidationError) := h
      simp at h
  | none =>
    have heq : rule7_join_alias jm (some j)
        = (jmInsert jm j.table (j.«on», j.«alias»), ([] : List ValidationError)) := by
      rw [rule7_eq, hf]
    rw [heq] at h
    simp at h

theorem rule7_mem_of_cond {jm : JoinMap} {j : Join} {ea : Str × Option Str}
    (hf : jmFind jm j.table = some ea) (hc : ea.1 ≠ j.«on» ∧ j.«alias» = none ∧ ea.2 = none) :
    ValidationError.Rule R_join_alias (msg_join_alias j.table)
      ∈ (rule7_join_alias jm (some j)).2 := by
  have heq : rule7_join_alias jm (some j)
      = if ea.1 ≠ j.«on» ∧ j.«alias» = none ∧ ea.2 = none
        then (jm, [ValidationError.Rule R_join_alias (msg_join_alias j.table)])
        else (jm, ([] : List ValidationError)) := by
    rw [rule7_eq, hf]
  rw [heq, if_pos hc]
  show ValidationError.Rule R_join_alias (msg_join_alias j.table)
    ∈ [ValidationError.Rule R_join_alias (msg_join_alias j.table)]
  exact List.mem_singleton.mpr rfl

theorem aliasDiagIn_nil (entry : Option (Str × Option Str)) : aliasDiagIn entry [] ↔ False := by
  cases entry <;> simp [aliasDiagIn]

theorem aliasDiagIn_append (entry : Option (Str × Option Str)) (l1 l2 : List Join) :
    aliasDiagIn entry (l1 ++ l2) ↔
      aliasDiagIn entry l1 ∨
        aliasDiagIn (match entry with
          | some v => some v
          | none => headEntry l1) l2 := by
  cases entry with
  | some e =>
    simp only [aliasDiagIn, List.mem_append]
    constructor
    · rintro ⟨j, hj | hj, hc⟩
      · exact Or.inl ⟨j, hj, hc⟩
      · exact Or.inr ⟨j, hj, hc⟩
    · rintro (⟨j, hj, hc⟩ | ⟨j, hj, hc⟩)
      · exact ⟨j, Or.inl hj, hc⟩
      · exact ⟨j, Or.inr hj, hc⟩
  | none =>
    cases l1 with
    | nil => simp [aliasDiagIn, headEntry]
    | cons j1 js1 =>
      show aliasDiagIn none (j1 :: (js1 ++ l2)) ↔ _
      simp only [aliasDiagIn, headEntry, List.mem_append]
      constructor
      · rintro ⟨j, hj | hj, hc⟩
        · exact Or.inl ⟨j, hj, hc⟩
        · exact Or.inr ⟨j, hj, hc⟩
      · rintro (⟨j, hj, hc⟩ | ⟨j, hj, hc⟩)
        · exact ⟨j, Or.inl hj, hc⟩
        · exact ⟨j, Or.inr hj, hc⟩

theorem aliasDiag_notMem_rule6on {imp : List Str} {join : Option Join} {t : Str} :
    ValidationError.Rule R_join_alias (msg_join_alias t) ∉ rule6_join_on imp join :=
  fun hm => absurd (errRule_rule6_join_on hm).1 (show ¬ (R_join_alias = R_join_on) by decide)

theorem aliasDiag_notMem_rule6chain {imp : List Str} {jc : Option (List JoinChainEntry)}
    {t : Str} :
    ValidationError.Rule R_join_alias (msg_join_alias t) ∉ rule6_join_chain imp jc :=
  fun hm =>
    absurd (errRule_rule6_join_chain hm).1 (show ¬ (R_join_alias = R_join_chain_on) by decide)

theorem aliasDiag_notMem_rule8 {field : Str} {agg : Option Aggregate} {t : Str} :
    ValidationError.Rule R_join_alias (msg_join_alias t) ∉ rule8_aggregate field agg :=
  fun hm => by
    obtain ⟨-, m, hmw⟩ := errRule_rule8 hm
    exact ValidationError.noConfusion hmw

theorem aliasDiag_notMem_rule11 {field : Str} {rtype source_table : Option Str}
    {join : Option Join} {jc : Option (List JoinChainEntry)} {t : Str} :
    ValidationError.Rule R_join_alias (msg_join_alias t)
      ∉ rule11_source_table field rtype source_table join jc :=
  fun hm => absurd (errRule_rule11 hm) (show ¬ (R_join_alias = R_source_table) by decide)

theorem aliasDiag_rule7 (jm : JoinMap) (join : Option Join) (t : Str) :
    (ValidationError.Rule R_join_alias (msg_join_alias t) ∈ (rule7_join_alias jm join).2)
      ↔ aliasDiagIn (jmFind jm t) ((opt_join_list join).filter fun j => j.table == t) := by
  cases join with
  | none =>
    show ValidationError.Rule R_join_alias (msg_join_alias t) ∈ ([] : List ValidationError) ↔ _
    simp [aliasDiagIn_nil, opt_join_list]
  | some j =>
    by_cases hjt : j.table = t
    · subst hjt
      rw [show (opt_join_list (some j)).filter (fun j' => j'.table == j.table) = [j] from by
        simp [opt_join_list, List.filter_cons]]
      cases hf : jmFind jm j.table with
      | some ea =>
        constructor
        · intro h
          obtain ⟨-, ea', hf', hc⟩ := mem_rule7_shape h
          rw [hf] at hf'
          cases hf'
          exact ⟨j, List.mem_singleton.mpr rfl, hc⟩
        · rintro ⟨j', hj', hc⟩
          rw [List.mem_singleton] at hj'
          subst hj'
          exact rule7_mem_of_cond hf hc
      | none =>
        constructor
        · intro h
          obtain ⟨-, ea', hf', -⟩ := mem_rule7_shape h
          rw [hf] at hf'
          cases hf'
        · intro h
          obtain ⟨j', hj', -⟩ : ∃ j' ∈ ([] : List Join), aliasCond (j.«on», j.«alias») j' := h
          simp at hj'
    · rw [show (opt_join_list (some j)).filter (fun j' => j'.table == t) = [] from by
        simp [opt_join_list, List.filter_cons, hjt]]
      rw [aliasDiagIn_nil, iff_false]
      intro hm
      obtain ⟨hshape, -⟩ := mem_rule7_shape hm
      have := msg_join_alias_inj (by
        have h2 := hshape
        simp only [ValidationError.Rule.injEq] at h2
        exact h2.2.symm)
      exact hjt this

mutual
theorem aliasDiag_vrm_one (imp : List Str) (m : ResponseMapping) (jm : JoinMap) (t : Str) :
    (ValidationError.Rule R_join_alias (msg_join_alias t) ∈ (validate_mapping_node imp m jm).2)
      ↔ aliasDiagIn (jmFind jm t) ((joins_one m).filter fun j => j.table == t) := by
  match m with
  | .mk field src rtype st join jc agg fields =>
    cases fields with
    | none =>
      show (ValidationError.Rule R_join_alias (msg_join_alias t)
          ∈ (rule7_join_alias jm join).2 ++ rule6_join_on imp join
            ++ rule6_join_chain imp jc ++ rule8_aggregate field agg
            ++ rule11_source_table field rtype st join jc ++ ([] : List ValidationError))
        ↔ aliasDiagIn (jmFind jm t) ((opt_join_list join).filter fun j => j.table == t)
      simp only [List.mem_append, List.not_mem_nil, or_false]
      constructor
      · rintro ((((h | h) | h) | h) | h)
        · exact (aliasDiag_rule7 jm join t).mp h
        · exact absurd h aliasDiag_notMem_rule6on
        · exact absurd h aliasDiag_notMem_rule6chain
        · exact absurd h aliasDiag_notMem_rule8
        · exact absurd h aliasDiag_notMem_rule11
      · intro h
        exact Or.inl (Or.inl (Or.inl (Or.inl ((aliasDiag_rule7 jm join t).mpr h))))
    | some s =>
      show (ValidationError.Rule R_join_alias (msg_join_alias t)
          ∈ (rule7_join_alias jm join).2 ++ rule6_join_on imp join
            ++ rule6_join_chain imp jc ++ rule8_aggregate field agg
            ++ rule11_source_table field rtype st join jc
            ++ (validate_response_mapping_inner imp s (rule7_join_alias jm join).1).2)
        ↔ aliasDiagIn (jmFind jm t)
            ((opt_join_list join ++ joins_list s).filter fun j => j.table == t)
      rw [List.filter_append, aliasDiagIn_append]
      simp only [List.mem_append]
      constructor
      · rintro (((((h | h) | h) | h) | h) | h)
        · exact Or.inl ((aliasDiag_rule7 jm join t).mp h)
        · exact absurd h aliasDiag_notMem_rule6on
        · exact absurd h aliasDiag_notMem_rule6chain
        · exact absurd h aliasDiag_notMem_rule8
        · exact absurd h aliasDiag_notMem_rule11
        · right
          have h2 := (aliasDiag_vrm_list imp s _ t).mp h
          rw [jm_after_rule7 jm join t] at h2
          exact h2
      · rintro (h | h)
        · exact Or.inl (Or.inl (Or.inl (Or.inl (Or.inl ((aliasDiag_rule7 jm join t).mpr h)))))
        · refine Or.inr ((aliasDiag_vrm_list imp s _ t).mpr ?_)
          rw [jm_after_rule7 jm join t]
          exact h

theorem aliasDiag_vrm_list (imp : List Str) (ms : RMList) (jm : JoinMap) (t : Str) :
    (ValidationError.Rule R_join_alias (msg_join_alias t)
        ∈ (validate_response_mapping_inner imp ms jm).2)
      ↔ aliasDiagIn (jmFind jm t) ((joins_list ms).filter fun j => j.table == t) := by
  match ms with
  | .nil =>
    show ValidationError.Rule R_join_alias (msg_join_alias t) ∈ ([] : List ValidationError) ↔ _
    rw [show joins_list RMList.nil = ([] : List Join) from rfl]
    simp [aliasDiagIn_nil]
  | .cons m rest =>
    show (ValidationError.Rule R_join_alias (msg_join_alias t)
        ∈ (validate_mapping_node imp m jm).2
          ++ (validate_response_mapping_inner imp rest (validate_mapping_node imp m jm).1).2)
      ↔ aliasDiagIn (jmFind jm t)
          ((joins_one m ++ joins_list rest).filter fun j => j.table == t)
    rw [List.filter_append, aliasDiagIn_append, List.mem_append]
    constructor
    · rintro (h | h)
      · exact Or.inl ((aliasDiag_vrm_one imp m jm t).mp h)
      · right
        have h2 := (aliasDiag_vrm_list imp rest _ t).mp h
        rw [jm_after_one imp m jm t] at h2
        exact h2
    · rintro (h | h)
      · exact Or.inl ((aliasDiag_vrm_one imp m jm t).mpr h)
      · refine Or.inr ((aliasDiag_vrm_list imp rest _ t).mpr ?_)
        rw [jm_after_one imp m jm t]
        exact h
end

theorem aliasDiag_notMem_imports {doc : UsmlDocument} {imp : List Str} {t : Str} :
    ValidationError.Rule R_join_alias (msg_join_alias t) ∉ validate_imports doc imp :=
  fun hm =>
    absurd (errRule_validate_imports hm) (show ¬ (R_join_alias = R_import_dbml) by decide)

theorem aliasDiag_notMem_filters {doc : UsmlDocument} {t : Str} :
    ValidationError.Rule R_join_alias (msg_join_alias t) ∉ validate_filters doc :=
  fun hm => by
    rcases errRule_validate_filters hm with h | h
    · exact absurd h (show ¬ (R_join_alias = R_filters_condition) by decide)
    · exact absurd h (show ¬ (R_join_alias = R_filters_allowed) by decide)

theorem aliasDiag_notMem_transforms {doc : UsmlDocument} {t : Str} :
    ValidationError.Rule R_join_alias (msg_join_alias t) ∉ validate_transforms doc :=
  fun hm => by
    rcases errRule_validate_transforms hm with ⟨u, h⟩ | ⟨u, h⟩
    · exact rule_ne_of_ruleid (by decide) h
    · exact ValidationError.noConfusion h

/-- C6: for every document and table `t` whose traversal-order join list
(shared across siblings and descendants) consists of exactly two joins with
different `on` strings, `validate` emits the `join.alias` diagnostic for `t`
iff neither the first-seen nor the later occurrence declares an alias;
an alias on either occurrence suppresses it. -/
theorem C6_join_alias_pair (doc : UsmlDocument) (t : Str) (j1 j2 : Join)
    (hjs : joins_for t doc.usecase.response_mapping = [j1, j2])
    (hon : j1.«on» ≠ j2.«on») :
    (ValidationError.Rule R_join_alias (msg_join_alias t) ∈ validate doc)
      ↔ (j1.«alias» = none ∧ j2.«alias» = none) := by
  have hsplit : (ValidationError.Rule R_join_alias (msg_join_alias t) ∈ validate doc)
      ↔ ValidationError.Rule R_join_alias (msg_join_alias t)
          ∈ (validate_response_mapping_inner (parse_imported_tables doc)
              doc.usecase.response_mapping []).2 := by
    rw [validate_eq]
    simp only [List.mem_append]
    constructor
    · rintro (((h | h) | h) | h)
      · exact absurd h aliasDiag_notMem_imports
      · exact h
      · exact absurd h aliasDiag_notMem_filters
      · exact absurd h aliasDiag_notMem_transforms
    · intro h
      exact Or.inl (Or.inl (Or.inr h))
  rw [hsplit, aliasDiag_vrm_list]
  rw [show jmFind ([] : JoinMap) t = none from rfl]
  rw [show (joins_list doc.usecase.response_mapping).filter (fun j => j.table == t)
      = [j1, j2] from hjs]
  simp only [aliasDiagIn, aliasCond, List.mem_singleton]
  constructor
  · rintro ⟨j, hj, -, h2, h1⟩
    subst hj
    exact ⟨h1, h2⟩
  · rintro ⟨h1, h2⟩
    exact ⟨j2, rfl, hon, h2, h1⟩

/-- C6 witness: `docTwoJoins` joins `users` twice with different `on` strings
and no alias on either occurrence, and `validate` emits the `join.alias`
diagnostic for `users`. -/
theorem C6_witness :
    ValidationError.Rule R_join_alias (msg_join_alias (("users").data))
      ∈ validate docTwoJoins := by
  have h := C6_join_alias_pair docTwoJoins (("users").data)
    { table := ("users").data, «on» := ("posts.user_id = users.id").data
    , rtype := none, «alias» := none }
    { table := ("users").data, «on» := ("posts.editor_id = users.id").data
    , rtype := none, «alias» := none }
    (by decide) (by decide)
  exact h.mpr ⟨rfl, rfl⟩

/-! ## Claim C8 -/

/-- C8: `validate` is deterministic and idempotent — two calls on the same
document yield identical diagnostic sequences: the validator is a pure
function of the document, with no hidden state between calls. -/
theorem C8_validate_deterministic (d1 d2 : UsmlDocument) (h : d1 = d2) :
    validate d1 = validate d2 := by
  rw [h]

/-- C8 witness: two calls on `docTwoJoins` agree. -/
theorem C8_witness : validate docTwoJoins = validate docTwoJoins :=
  C8_validate_deterministic docTwoJoins docTwoJoins rfl

/-! ## Claim C2 -/

/-- C2 (amended): when OpenAPI resolution succeeded (`ctx.openapi = some`),
`validate_with_resolve` additionally emits a Rule-kind
`transforms.condition.param` diagnostic for each transform condition whose
`param` is absent from the resolved parameter set, while the Warning-kind
diagnostic from the base `validate` pass remains in the output — the Warning
is not replaced. -/
theorem C2_param_rule_added_warning_kept (doc : UsmlDocument) (ctx : ResolveContext)
    (res : List ValidationError) (oa : OpenapiResponse) (hctx : ctx.openapi = some oa)
    (tr : Transform) (htr : tr ∈ doc.usecase.transforms)
    (conds : List TransformCondition) (hc : tr.condition = some conds)
    (cond : TransformCondition) (hcc : cond ∈ conds)
    (p : Str) (hp : cond.param = some p) (hmiss : p ∉ oa.parameters) :
    ValidationError.Rule R_transforms_condition_param (msg_transform_param_rule tr.target p)
      ∈ validate_with_resolve doc ctx res
    ∧ ValidationError.Warning R_transforms_condition_param (msg_transform_param_warn tr.target)
      ∈ validate_with_resolve doc ctx res := by
  constructor
  · have hmem : ValidationError.Rule R_transforms_condition_param
        (msg_transform_param_rule tr.target p)
        ∈ validate_transform_params doc.usecase.transforms oa := by
      unfold validate_transform_params
      refine List.mem_flatMap.mpr ⟨tr, htr, ?_⟩
      rw [hc]
      refine List.mem_filterMap.mpr ⟨cond, hcc, ?_⟩
      rw [hp]
      show (if p ∈ oa.parameters then none
        else some (ValidationError.Rule R_transforms_condition_param
          (msg_transform_param_rule tr.target p))) = _
      rw [if_neg hmiss]
    unfold validate_with_resolve
    rw [hctx]
    exact List.mem_append.mpr (Or.inr hmem)
  · have hwmem : ValidationError.Warning R_transforms_condition_param
        (msg_transform_param_warn tr.target) ∈ validate_transforms doc := by
      unfold validate_transforms
      refine List.mem_flatMap.mpr ⟨tr, htr, ?_⟩
      refine List.mem_append.mpr (Or.inr ?_)
      unfold transform_condition_warnings
      rw [hc]
      refine List.mem_filterMap.mpr ⟨cond, hcc, ?_⟩
      rw [hp]
    have hv : ValidationError.Warning R_transforms_condition_param
        (msg_transform_param_warn tr.target) ∈ validate doc := by
      rw [validate_eq]
      exact List.mem_append.mpr (Or.inr hwmem)
    unfold validate_with_resolve
    exact List.mem_append.mpr (Or.inl (List.mem_append.mpr (Or.inl (List.mem_append.mpr
      (Or.inl (List.mem_append.mpr (Or.inl hv)))))))

/-- C2 counterexample: with `docCondParam` and a successfully resolved OpenAPI
context, the Warning-kind `transforms.condition.param` diagnostic still
appears in `validate_with_resolve`'s output — contradicting the claim that no
Warning-kind diagnostic of that rule remains in the result. -/
theorem C2_counterexample :
    ctxStatus.openapi.isSome = true ∧
    ValidationError.Warning R_transforms_condition_param
        (msg_transform_param_warn (("id").data))
      ∈ validate_with_resolve docCondParam ctxStatus [] := by
  decide

/-- C2 witness: on `docCondParam` with `ctxStatus` both the hard Rule
diagnostic and the kept Warning are present. -/
theorem C2_witness :
    ValidationError.Rule R_transforms_condition_param
        (msg_transform_param_rule (("id").data) (("role").data))
      ∈ validate_with_resolve docCondParam ctxStatus []
    ∧ ValidationError.Warning R_transforms_condition_param
        (msg_transform_param_warn (("id").data))
      ∈ validate_with_resolve docCondParam ctxStatus [] :=
  C2_param_rule_added_warning_kept docCondParam ctxStatus [] oaStatus rfl
    trCondParam (by decide) [condRole] rfl condRole (by decide) (("role").data) rfl
    (by decide)

/-! ## Claim C3 -/

/-- C3 counterexample: the ref `tables["users"]` has no `#` separator, so
`parse_dbml_ref` returns `none`, yet `parse_imported_tables` still contributes
the table name `users` for a document importing exactly that ref — the
extraction does not re-apply the DBML reference grammar. -/
theorem C3_counterexample :
    parse_dbml_ref (("tables[\"users\"]").data) = none ∧
    parse_imported_tables docHashless = [("users").data] := by
  decide

/-- C3 (amended): the per-ref extraction of `parse_imported_tables`
(`imported_table_of_ref`) agrees with `parse_dbml_ref`'s table-name component
on refs assembled as `<path>#tables["<name>"]` provided `tables["` occurs
nowhere in the `<path>#` region and nowhere after the opening `tables["`, and
the path has no `#`; outside these conditions the two can disagree. -/
theorem C3_extraction_agrees_on_clean_refs (path name : Str)
    (h1 : containsSub tablesPat ((path ++ ['#']) ++ tablesPat.dropLast) = false)
    (h2 : containsSub tablesPat (name ++ closePat) = false)
    (h3 : ('#') ∉ path) :
    imported_table_of_ref (path ++ '#' :: (tablesPat ++ (name ++ closePat))) = some name ∧
    parse_dbml_ref (path ++ '#' :: (tablesPat ++ (name ++ closePat)))
      = some (path, name) := by
  have hr : path ++ '#' :: (tablesPat ++ (name ++ closePat))
      = (path ++ ['#']) ++ (tablesPat ++ (name ++ closePat)) := by
    simp
  have hs1 : splitOncePat tablesPat ((path ++ ['#']) ++ (tablesPat ++ (name ++ closePat)))
      = some (path ++ ['#'], name ++ closePat) :=
    splitOncePat_append_of_not_contains tablesPat (path ++ ['#']) (name ++ closePat)
      (by decide) h1
  have hs2 : splitOncePat tablesPat (name ++ closePat) = none :=
    splitOncePat_eq_none_of_not_contains tablesPat (name ++ closePat) h2
  have hn : splitNth1 tablesPat ((path ++ ['#']) ++ (tablesPat ++ (name ++ closePat)))
      = some (name ++ closePat) := by
    unfold splitNth1
    rw [hs1]
    show (match splitOncePat tablesPat (name ++ closePat) with
      | none => some (name ++ closePat)
      | some pq2 => some pq2.1) = some (name ++ closePat)
    rw [hs2]
  constructor
  · unfold imported_table_of_ref
    rw [hr, hn]
    show stripSuffixS closePat (name ++ closePat) = some name
    exact (stripSuffixS_eq_some_iff closePat (name ++ closePat) name).mpr rfl
  · unfold parse_dbml_ref
    rw [splitOnceChar_append '#' path (tablesPat ++ (name ++ closePat)) h3]
    show (match stripPrefixS tablesPat (tablesPat ++ (name ++ closePat)) with
      | none => none
      | some t =>
        match stripSuffixS closePat t with
        | none => none
        | some table_name => some (path, table_name)) = some (path, name)
    rw [(stripPrefixS_eq_some_iff tablesPat (tablesPat ++ (name ++ closePat))
      (name ++ closePat)).mpr rfl]
    show (match stripSuffixS closePat (name ++ closePat) with
      | none => none
      | some table_name => some (path, table_name)) = some (path, name)
    rw [(stripSuffixS_eq_some_iff closePat (name ++ closePat) name).mpr rfl]

/-- C3 witness: on the clean ref `./schema.dbml#tables["users"]` both
extractions return `users`. -/
theorem C3_witness :
    imported_table_of_ref (("./schema.dbml#tables[\"users\"]").data)
      = some (("users").data) ∧
    parse_dbml_ref (("./schema.dbml#tables[\"users\"]").data)
      = some ((("./schema.dbml").data), (("users").data)) := by
  have h := C3_extraction_agrees_on_clean_refs (("./schema.dbml").data) (("users").data)
    (by decide) (by decide) (by decide)
  have hr : (("./schema.dbml#tables[\"users\"]").data)
      = ("./schema.dbml").data ++ '#' :: (tablesPat ++ ((("users").data) ++ closePat)) := by
    decide
  rw [hr]
  exact h

/-! ## Claim C5 -/

/-- C5 counterexample: an embedded `"` inside the name does not break the
fragment grammar — `./s.dbml#tables["a"b"]` parses to `Some` with table name
`a"b`, not `None` as the claim states. -/
theorem C5_counterexample :
    parse_dbml_ref (("./s.dbml#tables[\"a\"b\"]").data)
      = some ((("./s.dbml").data), (("a\"b").data)) := by
  decide

/-- C5 (amended): `parse_dbml_ref` is total and succeeds exactly on inputs
decomposable as `<path>#tables["<name>"]` around the first `#`; `<name>` is
arbitrary — embedded `"` characters are accepted as part of the name — and
every input admitting no such decomposition yields `none`. -/
theorem C5_parse_dbml_ref_characterization (r p n : Str) :
    parse_dbml_ref r = some (p, n)
      ↔ (('#') ∉ p ∧ r = p ++ '#' :: (tablesPat ++ (n ++ closePat))) := by
  constructor
  · intro h
    unfold parse_dbml_ref at h
    cases hsc : splitOnceChar '#' r with
    | none => rw [hsc] at h; cases h
    | some pf =>
      rw [hsc] at h
      replace h : (match stripPrefixS tablesPat pf.2 with
        | none => none
        | some t =>
          match stripSuffixS closePat t with
          | none => none
          | some table_name => some (pf.1, table_name)) = some (p, n) := h
      cases hsp : stripPrefixS tablesPat pf.2 with
      | none => rw [hsp] at h; cases h
      | some t =>
        rw [hsp] at h
        replace h : (match stripSuffixS closePat t with
          | none => none
          | some table_name => some (pf.1, table_name)) = some (p, n) := h
        cases hss : stripSuffixS closePat t with
        | none => rw [hss] at h; cases h
        | some nm =>
          rw [hss] at h
          replace h : some (pf.1, nm) = some (p, n) := h
          obtain ⟨hp1, hn1⟩ : pf.1 = p ∧ nm = n := by
            simpa [Prod.ext_iff] using h
          obtain ⟨hno, hdec⟩ := splitOnceChar_eq_some '#' r pf.1 pf.2 hsc
          subst hp1
          subst hn1
          refine ⟨hno, ?_⟩
          have h2 := (stripPrefixS_eq_some_iff _ _ _).mp hsp
          have h3 := (stripSuffixS_eq_some_iff _ _ _).mp hss
          rw [hdec, h2, h3]
  · rintro ⟨hp, rfl⟩
    unfold parse_dbml_ref
    rw [splitOnceChar_append '#' p _ hp]
    show (match stripPrefixS tablesPat (tablesPat ++ (n ++ closePat)) with
      | none => none
      | some t =>
        match stripSuffixS closePat t with
        | none => none
        | some table_name => some (p, table_name)) = some (p, n)
    rw [(stripPrefixS_eq_some_iff tablesPat (tablesPat ++ (n ++ closePat))
      (n ++ closePat)).mpr rfl]
    show (match stripSuffixS closePat (n ++ closePat) with
      | none => none
      | some table_name => some (p, table_name)) = some (p, n)
    rw [(stripSuffixS_eq_some_iff closePat (n ++ closePat) n).mpr rfl]

/-! ## Claim C9 -/

/-- C9: `parse_openapi_ref` splits the fragment at the first `"].` after
`paths["` and at the first `.responses["` thereafter: a reference assembled
from a file path (no `#`), an api path containing no `"` (literal dots
allowed), a dot-free method and a status code parses back exactly, with the
api path's dots preserved intact. -/
theorem C9_parse_openapi_ref_first_split (file apiPath method status : Str)
    (h1 : ('#') ∉ file) (h2 : ('"') ∉ apiPath) (h3 : ('.') ∉ method) :
    parse_openapi_ref (file ++ '#' :: (pathsPat ++ (apiPath ++ (bracketDotPat
        ++ (method ++ (responsesPat ++ (status ++ closePat)))))))
      = some (file, apiPath, method, status) := by
  have hb : bracketDotPat = '"' :: (("].").data) := by decide
  have hq : responsesPat = '.' :: (("responses[\"").data) := by decide
  have hsplit1 : splitOncePat bracketDotPat (apiPath ++ (bracketDotPat
      ++ (method ++ (responsesPat ++ (status ++ closePat)))))
      = some (apiPath, method ++ (responsesPat ++ (status ++ closePat))) := by
    rw [hb]
    exact splitOncePat_append_head '"' (("].").data) apiPath
      (method ++ (responsesPat ++ (status ++ closePat))) h2
  have hsplit2 : splitOncePat responsesPat (method ++ (responsesPat ++ (status ++ closePat)))
      = some (method, status ++ closePat) := by
    rw [hq]
    exact splitOncePat_append_head '.' (("responses[\"").data) method (status ++ closePat) h3
  unfold parse_openapi_ref
  rw [splitOnceChar_append '#' file _ h1]
  show (match stripPrefixS pathsPat (pathsPat ++ (apiPath ++ (bracketDotPat
      ++ (method ++ (responsesPat ++ (status ++ closePat)))))) with
    | none => none
    | some without_paths =>
      match splitOncePat bracketDotPat without_paths with
      | none => none
      | some ar =>
        match splitOncePat responsesPat ar.2 with
        | none => none
        | some mr =>
          match stripSuffixS closePat mr.2 with
          | none => none
          | some status_code => some (file, ar.1, mr.1, status_code))
    = some (file, apiPath, method, status)
  rw [(stripPrefixS_eq_some_iff pathsPat _ _).mpr rfl]
  show (match splitOncePat bracketDotPat (apiPath ++ (bracketDotPat
      ++ (method ++ (responsesPat ++ (status ++ closePat))))) with
    | none => none
    | some ar =>
      match splitOncePat responsesPat ar.2 with
      | none => none
      | some mr =>
        match stripSuffixS closePat mr.2 with
        | none => none
        | some status_code => some (file, ar.1, mr.1, status_code))
    = some (file, apiPath, method, status)
  rw [hsplit1]
  show (match splitOncePat responsesPat (method ++ (responsesPat ++ (status ++ closePat))) with
    | none => none
    | some mr =>
      match stripSuffixS closePat mr.2 with
      | none => none
      | some status_code => some (file, apiPath, mr.1, status_code))
    = some (file, apiPath, method, status)
  rw [hsplit2]
  show (match stripSuffixS closePat (status ++ closePat) with
    | none => none
    | some status_code => some (file, apiPath, method, status_code))
    = some (file, apiPath, method, status)
  rw [(stripSuffixS_eq_some_iff closePat (status ++ closePat) status).mpr rfl]

/-- C9 witness: the api path `/v1.2/users` contains a literal dot and is
returned intact. -/
theorem C9_witness :
    parse_openapi_ref (("./api.yaml#paths[\"/v1.2/users\"].get.responses[\"200\"]").data)
      = some ((("./api.yaml").data), (("/v1.2/users").data), (("get").data),
          (("200").data)) := by
  have h := C9_parse_openapi_ref_first_split (("./api.yaml").data) (("/v1.2/users").data)
    (("get").data) (("200").data) (by decide) (by decide) (by decide)
  have hr : (("./api.yaml#paths[\"/v1.2/users\"].get.responses[\"200\"]").data)
      = ("./api.yaml").data ++ '#' :: (pathsPat ++ ((("/v1.2/users").data) ++ (bracketDotPat
          ++ ((("get").data) ++ (responsesPat ++ ((("200").data) ++ closePat)))))) := by
    decide
  rw [hr]
  exact h

/-! ## Claim C10 -/

mutual
theorem takeWhile_mem_used_one (m : ResponseMapping) (s : Str)
    (hs : s ∈ sources_one m) :
    (s.takeWhile fun c => c ≠ '.') ∈ used_one m := by
  match m with
  | .mk f src rt st join jc agg fields =>
    cases fields with
    | none =>
      replace hs : s ∈ opt_source_list src := hs
      show (s.takeWhile fun c => c ≠ '.') ∈ source_part src ++ join_part join ++ chain_part jc
      cases src with
      | none => simp [opt_source_list] at hs
      | some s0 =>
        rw [show opt_source_list (some s0) = [s0] from rfl, List.mem_singleton] at hs
        subst hs
        refine List.mem_append.mpr (Or.inl (List.mem_append.mpr (Or.inl ?_)))
        show _ ∈ source_part (some s)
        rw [show source_part (some s) = [s.takeWhile fun c => c ≠ '.'] from rfl]
        exact List.mem_singleton.mpr rfl
    | some sub =>
      replace hs : s ∈ opt_source_list src ++ sources_list sub := hs
      show (s.takeWhile fun c => c ≠ '.')
        ∈ source_part src ++ join_part join ++ chain_part jc ++ used_list sub
      rw [List.mem_append] at hs
      rcases hs with hs | hs
      · cases src with
        | none => simp [opt_source_list] at hs
        | some s0 =>
          rw [show opt_source_list (some s0) = [s0] from rfl, List.mem_singleton] at hs
          subst hs
          refine List.mem_append.mpr (Or.inl (List.mem_append.mpr (Or.inl
            (List.mem_append.mpr (Or.inl ?_)))))
          show _ ∈ source_part (some s)
          rw [show source_part (some s) = [s.takeWhile fun c => c ≠ '.'] from rfl]
          exact List.mem_singleton.mpr rfl
      · exact List.mem_append.mpr (Or.inr (takeWhile_mem_used_list sub s hs))

theorem takeWhile_mem_used_list (ms : RMList) (s : Str) (hs : s ∈ sources_list ms) :
    (s.takeWhile fun c => c ≠ '.') ∈ used_list ms := by
  match ms with
  | .nil =>
    replace hs : s ∈ ([] : List Str) := hs
    simp at hs
  | .cons m rest =>
    replace hs : s ∈ sources_one m ++ sources_list rest := hs
    show _ ∈ used_one m ++ used_list rest
    rw [List.mem_append] at hs
    rcases hs with hs | hs
    · exact List.mem_append.mpr (Or.inl (takeWhile_mem_used_one m s hs))
    · exact List.mem_append.mpr (Or.inr (takeWhile_mem_used_list rest s hs))
end

/-- C10: a `source` string containing no `.` is treated by the
import-coverage rule as a table reference equal to the entire string —
`collect_used_tables` takes everything before the first `.`, the whole string
when there is none — so such a source produces an `import.dbml` diagnostic in
`validate` whenever the whole string is absent from the extracted imported
table names. -/
theorem C10_dotless_source_is_table_ref (doc : UsmlDocument) (s : Str)
    (hs : s ∈ sources_list doc.usecase.response_mapping)
    (hdot : ('.') ∉ s)
    (hmiss : s ∉ parse_imported_tables doc) :
    ValidationError.Rule R_import_dbml (msg_import_dbml s) ∈ validate doc := by
  have h1 : (s.takeWhile fun c => c ≠ '.') ∈ used_list doc.usecase.response_mapping :=
    takeWhile_mem_used_list _ s hs
  rw [takeWhile_ne_of_notMem '.' s hdot] at h1
  have h2 : s ∈ collect_used_tables doc.usecase.response_mapping := by
    rw [collect_used_tables, mem_collect_list]
    exact Or.inr h1
  have h3 : ValidationError.Rule R_import_dbml (msg_import_dbml s)
      ∈ validate_imports doc (parse_imported_tables doc) := by
    unfold validate_imports
    refine List.mem_filterMap.mpr ⟨s, h2, ?_⟩
    rw [if_neg hmiss]
  rw [validate_eq]
  exact List.mem_append.mpr (Or.inl (List.mem_append.mpr (Or.inl
    (List.mem_append.mpr (Or.inl h3)))))

/-- C10 witness: `docBareSource` maps a field from `source: "id"` (no dot);
only `users` is imported, and `validate` reports table `id` as missing. -/
theorem C10_witness :
    ValidationError.Rule R_import_dbml (msg_import_dbml (("id").data))
      ∈ validate docBareSource :=
  C10_dotless_source_is_table_ref docBareSource (("id").data)
    (by decide) (by decide) (by decide)

end Usml
